import Mathlib

set_option autoImplicit false

/-!
Verification of the Manifest Identity & Reference Rewriting Engine of the
gatekeeper task generator (scripts/gatekeeper-taskgen).  Go documents of type
`map[string]interface{}` are modelled as association lists of `String × Val`
with Go-map semantics (at most one binding per key observable: lookups take the
first binding, updates replace the first binding).  Go numeric scalars
(`int` / `float64` replica counts, which are integral in every manifest) are
modelled as a single integer constructor.  File system reads and writes, YAML
(un)marshalling and prompt generation are I/O performed by the excluded
collaborators and are not part of the rewriting core being modelled.
-/

namespace K8sAiBench

/-- Generic structured document value: the model of Go `interface{}` trees
produced by `sigs.k8s.io/yaml` unmarshalling. -/
inductive Val where
  | str : String → Val
  | num : Int → Val
  | bool : Bool → Val
  | null : Val
  | obj : List (String × Val) → Val
  | arr : List Val → Val
deriving BEq

/-- Association-list representation of a Go `map[string]interface{}`. -/
abbrev Obj := List (String × Val)

/-- Go map read `m[k]`: first binding for `k`, if any. -/
def getVal : Obj → String → Option Val
  | [], _ => none
  | (k, v) :: rest, key => if k = key then some v else getVal rest key

/-- Go map write `m[k] = v`: replace the first binding, or append. -/
def setVal : Obj → String → Val → Obj
  | [], key, v => [(key, v)]
  | (k, w) :: rest, key, v =>
    if k = key then (k, v) :: rest else (k, w) :: setVal rest key v

/-- Go `delete(m, k)`: drop every binding for `k`. -/
def delVal : Obj → String → Obj
  | [], _ => []
  | (k, w) :: rest, key => if k = key then delVal rest key else (k, w) :: delVal rest key

/-- Number of bindings for a key (1 for any Go-representable map that has the
key, 0 otherwise). -/
def countKey : Obj → String → Nat
  | [], _ => 0
  | (k, _) :: rest, key => (if k = key then 1 else 0) + countKey rest key

/-- Translation of `getStr` (scripts/gatekeeper-taskgen, manifest helpers):
walk nested maps along `keys`; the final value must be a string, otherwise
return the empty string. -/
def getStr (m : Obj) : List String → String
  | [] => ""
  | [k] =>
    match getVal m k with
    | some (Val.str s) => s
    | _ => ""
  | k :: rest =>
    match getVal m k with
    | some (Val.obj next) => getStr next rest
    | _ => ""

/-- Translation of `isClusterScoped` (manifest.go / the generator's manifest
file): the scope classifier used by the rewriting engine. -/
def isClusterScoped (kind : String) : Bool :=
  kind == "Namespace" || kind == "ClusterRole" || kind == "ClusterRoleBinding" ||
    kind == "StorageClass"

/-- Translation of `clusterScopedKinds` (the generator's utils file): a distinct,
larger kind list used by `isClusterScopedKind`, not by the rewriting engine. -/
def clusterScopedKinds : List String :=
  ["APIService", "ClusterRole", "ClusterRoleBinding", "CustomResourceDefinition",
   "CSIDriver", "CSINode", "FlowSchema", "MutatingWebhookConfiguration",
   "Namespace", "Node", "PersistentVolume", "PodSecurityPolicy", "PriorityClass",
   "RuntimeClass", "StorageClass", "ValidatingWebhookConfiguration",
   "VolumeAttachment"]

/-- Translation of `isClusterScopedKind` (the generator's utils file). -/
def isClusterScopedKind (kind : String) : Bool :=
  clusterScopedKinds.contains kind

/-- Translation of `nameKey` (main.go): the identity triple used as the key of
both the name map and the allocator registry. -/
structure nameKey where
  kind : String
  nspace : String
  name : String
deriving DecidableEq

/-- Translation of `nameMap.set` (main.go): record `original ↦ renamed` under
`(kind, namespace)`; empty originals are ignored.  Prepending shadows any older
binding, which is observationally the Go map overwrite. -/
def nmSet (entries : List (nameKey × String)) (kind nspace original renamed : String) :
    List (nameKey × String) :=
  if original = "" then entries
  else (⟨kind, nspace, original⟩, renamed) :: entries

/-- Lookup of a name-map entry (the Go `nm.entries[key]` read). -/
def findEntry : List (nameKey × String) → nameKey → Option String
  | [], _ => none
  | (k, v) :: rest, key => if k = key then some v else findEntry rest key

/-- Translation of `nameMap.mapName` (main.go): resolve `(kind, namespace,
name)`; pass the input through unchanged when no entry exists. -/
def mapName (entries : List (nameKey × String)) (kind nspace name : String) : String :=
  if name = "" then name
  else
    match findEntry entries ⟨kind, nspace, name⟩ with
    | some renamed => renamed
    | none => name

/-- Translation of the flat `mapName(name, nameMap)` helper of the older
manifest.go generation, which resolves by bare name. -/
def mapNameFlat (nm : List (String × String)) (name : String) : String :=
  match nm.lookup name with
  | some v => v
  | none => name

/-- Search loop of `nameAllocator.allocate` (main.go): try suffix candidates
`base-i`, `base-(i+1)`, … in order; the Go loop is unbounded, the explicit fuel
is shown sufficient (`allocate_total`) so the `none` branch is unreachable. -/
def allocateAux (used : List nameKey) (kind nspace base : String) :
    Nat → Nat → Option (String × List nameKey)
  | 0, _ => none
  | fuel + 1, i =>
    let candidate := base ++ "-" ++ Nat.repr i
    if (⟨kind, nspace, candidate⟩ : nameKey) ∈ used then
      allocateAux used kind nspace base fuel (i + 1)
    else
      some (candidate, ⟨kind, nspace, candidate⟩ :: used)

/-- Translation of `nameAllocator.allocate` (main.go): returns the final name,
the `wasRenamed` flag, and the updated registry. -/
def allocate (used : List nameKey) (kind nspace base : String) :
    String × Bool × List nameKey :=
  if base = "" then ("", false, used)
  else if (⟨kind, nspace, base⟩ : nameKey) ∈ used then
    match allocateAux used kind nspace base (used.length + 1) 2 with
    | some (candidate, used2) => (candidate, true, used2)
    | none => ("", true, used)
  else (base, false, ⟨kind, nspace, base⟩ :: used)

/-! ### Injectivity of decimal printing

`allocate`'s candidate names `base-2`, `base-3`, … are pairwise distinct, which
drives the termination (pigeonhole) argument for the search loop.  We prove
`Nat.repr` injective by round-tripping through a decimal decoder. -/

/-- Decimal digit list of a natural number, matching what
`Nat.toDigitsCore 10` accumulates. -/
def decDigits (n : Nat) : List Char :=
  if n < 10 then [Nat.digitChar n]
  else decDigits (n / 10) ++ [Nat.digitChar (n % 10)]
termination_by n
decreasing_by
  exact Nat.div_lt_self (by omega) (by omega)

/-- Numeric value of a decimal digit character. -/
def digitVal (c : Char) : Nat := c.toNat - 48

/-- Evaluate a decimal digit string. -/
def decodeDec (l : List Char) : Nat :=
  l.foldl (fun a c => a * 10 + digitVal c) 0

theorem digitVal_digitChar {k : Nat} (h : k < 10) :
    digitVal (Nat.digitChar k) = k := by
  interval_cases k <;> decide

theorem toDigitsCore_eq_decDigits :
    ∀ (fuel n : Nat) (ds : List Char), n < fuel →
      Nat.toDigitsCore 10 fuel n ds = decDigits n ++ ds := by
  intro fuel
  induction fuel with
  | zero => intro n ds h; omega
  | succ f ih =>
    intro n ds h
    rw [Nat.toDigitsCore]
    by_cases h10 : n / 10 = 0
    · have hn : n < 10 := by omega
      rw [if_pos h10, decDigits, if_pos hn, Nat.mod_eq_of_lt hn]
      simp
    · have hge : 10 ≤ n := by
        by_contra hc
        exact h10 (Nat.div_eq_of_lt (by omega))
      have hlt : n / 10 < n := Nat.div_lt_self (by omega) (by omega)
      have hdiv : n / 10 < f := by omega
      have hstep : decDigits n = decDigits (n / 10) ++ [Nat.digitChar (n % 10)] := by
        rw [decDigits]
        rw [if_neg (by omega)]
      rw [if_neg h10, ih (n / 10) _ hdiv, hstep]
      simp

theorem decodeDec_append_singleton (l : List Char) (c : Char) :
    decodeDec (l ++ [c]) = decodeDec l * 10 + digitVal c := by
  simp [decodeDec, List.foldl_append]

theorem decodeDec_decDigits : ∀ n : Nat, decodeDec (decDigits n) = n := by
  intro n
  induction n using Nat.strong_induction_on with
  | _ n ih =>
    rw [decDigits]
    by_cases h : n < 10
    · rw [if_pos h]
      simp [decodeDec, digitVal_digitChar h]
    · rw [if_neg h]
      have hdiv : n / 10 < n := Nat.div_lt_self (by omega) (by omega)
      rw [decodeDec_append_singleton, ih (n / 10) hdiv,
        digitVal_digitChar (Nat.mod_lt n (by omega))]
      omega

theorem natRepr_inj {m n : Nat} (h : Nat.repr m = Nat.repr n) : m = n := by
  have hd : Nat.toDigits 10 m = Nat.toDigits 10 n := by
    have := congrArg String.data h
    simpa [Nat.repr, List.asString] using this
  have hm : Nat.toDigits 10 m = decDigits m := by
    have := toDigitsCore_eq_decDigits (m + 1) m [] (by omega)
    simpa [Nat.toDigits] using this
  have hn : Nat.toDigits 10 n = decDigits n := by
    have := toDigitsCore_eq_decDigits (n + 1) n [] (by omega)
    simpa [Nat.toDigits] using this
  have : decDigits m = decDigits n := by rw [← hm, ← hn, hd]
  calc m = decodeDec (decDigits m) := (decodeDec_decDigits m).symm
    _ = decodeDec (decDigits n) := by rw [this]
    _ = n := decodeDec_decDigits n

theorem candidate_inj (base : String) {i j : Nat}
    (h : base ++ "-" ++ Nat.repr i = base ++ "-" ++ Nat.repr j) : i = j := by
  apply natRepr_inj
  have := congrArg String.data h
  simp only [String.data_append] at this
  have := List.append_cancel_left this
  exact String.ext this

/-! ### Allocator correctness -/

theorem exists_free_candidate (used : List nameKey) (kind nspace base : String) :
    ∃ i, 2 ≤ i ∧ i < used.length + 3 ∧
      (⟨kind, nspace, base ++ "-" ++ Nat.repr i⟩ : nameKey) ∉ used := by
  by_contra hall
  push_neg at hall
  have hsub : (Finset.Icc 2 (used.length + 2)).image
      (fun i => (⟨kind, nspace, base ++ "-" ++ Nat.repr i⟩ : nameKey)) ⊆ used.toFinset := by
    intro k hk
    rcases Finset.mem_image.mp hk with ⟨i, hi, rfl⟩
    rcases Finset.mem_Icc.mp hi with ⟨h2, hle⟩
    exact List.mem_toFinset.mpr (hall i h2 (by omega))
  have hcard : ((Finset.Icc 2 (used.length + 2)).image
      (fun i => (⟨kind, nspace, base ++ "-" ++ Nat.repr i⟩ : nameKey))).card
      = used.length + 1 := by
    rw [Finset.card_image_of_injOn]
    · rw [Nat.card_Icc]
      omega
    · intro a _ b _ hab
      exact candidate_inj base (congrArg nameKey.name hab)
  have hle := Finset.card_le_card hsub
  have := List.toFinset_card_le used
  omega

theorem allocateAux_spec (used : List nameKey) (kind nspace base : String) :
    ∀ (fuel start : Nat),
      (∃ j, start ≤ j ∧ j < start + fuel ∧
        (⟨kind, nspace, base ++ "-" ++ Nat.repr j⟩ : nameKey) ∉ used) →
      ∃ k,
        allocateAux used kind nspace base fuel start =
          some (base ++ "-" ++ Nat.repr k,
            (⟨kind, nspace, base ++ "-" ++ Nat.repr k⟩ : nameKey) :: used) ∧
        start ≤ k ∧
        (⟨kind, nspace, base ++ "-" ++ Nat.repr k⟩ : nameKey) ∉ used ∧
        ∀ m, start ≤ m → m < k →
          (⟨kind, nspace, base ++ "-" ++ Nat.repr m⟩ : nameKey) ∈ used := by
  intro fuel
  induction fuel with
  | zero =>
    intro start h
    obtain ⟨j, h1, h2, _⟩ := h
    omega
  | succ f ih =>
    intro start hex
    by_cases hmem : (⟨kind, nspace, base ++ "-" ++ Nat.repr start⟩ : nameKey) ∈ used
    · obtain ⟨j, hj1, hj2, hj3⟩ := hex
      have hjne : j ≠ start := fun h => hj3 (h ▸ hmem)
      obtain ⟨k, hk1, hk2, hk3, hk4⟩ := ih (start + 1) ⟨j, by omega, by omega, hj3⟩
      refine ⟨k, ?_, by omega, hk3, fun m hm1 hm2 => ?_⟩
      · simp only [allocateAux]
        rw [if_pos hmem]
        exact hk1
      · by_cases hms : m = start
        · exact hms ▸ hmem
        · exact hk4 m (by omega) hm2
    · refine ⟨start, ?_, le_refl _, hmem, fun m hm1 hm2 => absurd hm2 (by omega)⟩
      simp only [allocateAux]
      rw [if_neg hmem]

theorem allocate_fresh_unused (used : List nameKey) (kind nspace base : String)
    (h : base ≠ "") (hmem : (⟨kind, nspace, base⟩ : nameKey) ∉ used) :
    allocate used kind nspace base = (base, false, ⟨kind, nspace, base⟩ :: used) := by
  simp [allocate, h, hmem]

theorem allocate_collision (used : List nameKey) (kind nspace base : String)
    (h : base ≠ "") (hmem : (⟨kind, nspace, base⟩ : nameKey) ∈ used) :
    ∃ k, 2 ≤ k ∧
      allocate used kind nspace base =
        (base ++ "-" ++ Nat.repr k, true,
          (⟨kind, nspace, base ++ "-" ++ Nat.repr k⟩ : nameKey) :: used) ∧
      (⟨kind, nspace, base ++ "-" ++ Nat.repr k⟩ : nameKey) ∉ used ∧
      ∀ m, 2 ≤ m → m < k →
        (⟨kind, nspace, base ++ "-" ++ Nat.repr m⟩ : nameKey) ∈ used := by
  obtain ⟨j, hj1, hj2, hj3⟩ := exists_free_candidate used kind nspace base
  obtain ⟨k, hk1, hk2, hk3, hk4⟩ :=
    allocateAux_spec used kind nspace base (used.length + 1) 2 ⟨j, hj1, by omega, hj3⟩
  refine ⟨k, hk2, ?_, hk3, hk4⟩
  simp [allocate, h, hmem, hk1]

theorem allocate_key_not_used (used : List nameKey) (kind nspace base : String)
    (h : base ≠ "") :
    (⟨kind, nspace, (allocate used kind nspace base).1⟩ : nameKey) ∉ used := by
  by_cases hmem : (⟨kind, nspace, base⟩ : nameKey) ∈ used
  · obtain ⟨k, _, heq, hfree, _⟩ := allocate_collision used kind nspace base h hmem
    rw [heq]
    exact hfree
  · rw [allocate_fresh_unused used kind nspace base h hmem]
    exact hmem

theorem allocate_state_eq (used : List nameKey) (kind nspace base : String)
    (h : base ≠ "") :
    (allocate used kind nspace base).2.2 =
      (⟨kind, nspace, (allocate used kind nspace base).1⟩ : nameKey) :: used := by
  by_cases hmem : (⟨kind, nspace, base⟩ : nameKey) ∈ used
  · obtain ⟨k, _, heq, _, _⟩ := allocate_collision used kind nspace base h hmem
    rw [heq]
  · rw [allocate_fresh_unused used kind nspace base h hmem]

/-! ### Manifest rewriting engine

Translation of the current engine: `applyIdentity`, `rewriteReferences`,
`rewriteRoleBindingRefs`, `fixReplicaCount`, `fixInitContainers`,
`fixBadImages` and `rewriteManifest` from the generator's manifest file, and
the per-case pipeline of `GenerateManifests`.  The Go type-assert-then-mutate
idiom becomes the `mod*` combinators below. -/

/-- Go idiom `if o, ok := m[k].(map[string]interface{}); ok { mutate o }`. -/
def modObjKey (m : Obj) (k : String) (f : Obj → Obj) : Obj :=
  match getVal m k with
  | some (Val.obj o) => setVal m k (Val.obj (f o))
  | _ => m

/-- Go idiom `if s, ok := m[k].(string); ok { m[k] = f(s) }`. -/
def modStrKey (m : Obj) (k : String) (f : String → String) : Obj :=
  match getVal m k with
  | some (Val.str s) => setVal m k (Val.str (f s))
  | _ => m

/-- Go idiom `if xs, ok := m[k].([]interface{}); ok { for each element … }`. -/
def modArrKey (m : Obj) (k : String) (f : Val → Val) : Obj :=
  match getVal m k with
  | some (Val.arr l) => setVal m k (Val.arr (l.map f))
  | _ => m

/-- Apply `f` to an array element when it is an object (the element type
assertion inside the Go range loops). -/
def modElemObj (f : Obj → Obj) : Val → Val
  | Val.obj o => Val.obj (f o)
  | v => v

/-- Character-list helper: does `s` start with `pat`. -/
def charsHasPre : List Char → List Char → Bool
  | [], _ => true
  | _ :: _, [] => false
  | p :: ps, c :: cs => p = c && charsHasPre ps cs

/-- Character-list substring search. -/
def charsContains (pat : List Char) : List Char → Bool
  | [] => charsHasPre pat []
  | c :: cs => charsHasPre pat (c :: cs) || charsContains pat cs

/-- Translation of Go `strings.Contains(s, pat)`. -/
def strContains (s pat : String) : Bool :=
  charsContains pat.data s.data

/-- Translation of `manifestRewriteContext`. -/
structure manifestRewriteContext where
  name : String
  ns : String
  nameMap : List (nameKey × String)
  taskID : String
  expected : String
  isInv : Bool

/-- The three provenance-label writes of `applyIdentity`. -/
def identityLabels (labels : Obj) (ctx : manifestRewriteContext) : Obj :=
  setVal (setVal (setVal labels
    "k8s-ai-bench/task" (Val.str ctx.taskID))
    "k8s-ai-bench/expected" (Val.str ctx.expected))
    "k8s-ai-bench/inventory" (Val.str (if ctx.isInv then "true" else "false"))

/-- The metadata object produced by `applyIdentity`: the Go `ensureMap`
insert-then-mutate collapses to compute-then-write-back. -/
def identityMeta (doc : Obj) (ctx : manifestRewriteContext) : Obj :=
  let meta := match getVal doc "metadata" with
    | some (Val.obj m) => m
    | _ => []
  let meta := setVal meta "name" (Val.str ctx.name)
  let meta := if isClusterScoped (getStr doc ["kind"]) then meta
    else setVal meta "namespace" (Val.str ctx.ns)
  let labels := match getVal meta "labels" with
    | some (Val.obj m) => m
    | _ => []
  setVal meta "labels" (Val.obj (identityLabels labels ctx))

/-- Translation of `applyIdentity`: stamp canonical name, namespace (for
namespace-scoped kinds) and the three provenance labels. -/
def applyIdentity (doc : Obj) (ctx : manifestRewriteContext) : Obj :=
  setVal doc "metadata" (Val.obj (identityMeta doc ctx))

/-- Translation of the `maxBetaReplicas` constant. -/
def maxBetaReplicas : Int := 5

/-- Translation of `fixReplicaCount`: the Go `int` and `float64` branches
collapse onto the single integer scalar constructor of the model. -/
def fixReplicaCount (spec : Obj) (expected : String) : Obj :=
  if expected ≠ "beta" then spec
  else
    match getVal spec "replicas" with
    | some (Val.num replicas) =>
      if maxBetaReplicas < replicas then setVal spec "replicas" (Val.num maxBetaReplicas)
      else spec
    | _ => spec

/-- Per-template body of the `rewriteVolumeClaimTemplates` loop. -/
def rewriteVCTEntry (nm : List (nameKey × String)) (claim : Obj) : Obj :=
  modObjKey claim "spec" (fun cs =>
    modStrKey cs "storageClassName" (fun sc => mapName nm "StorageClass" "" sc))

/-- Translation of `rewriteVolumeClaimTemplates`. -/
def rewriteVolumeClaimTemplates (spec : Obj) (nm : List (nameKey × String)) : Obj :=
  modArrKey spec "volumeClaimTemplates" (modElemObj (rewriteVCTEntry nm))

/-- Per-volume body of the volumes loop of `rewritePodSpecRefs`. -/
def rewriteVolumeEntry (nm : List (nameKey × String)) (ns : String) (vm : Obj) : Obj :=
  modObjKey vm "persistentVolumeClaim" (fun pvc =>
    modStrKey pvc "claimName" (fun cn => mapName nm "PersistentVolumeClaim" ns cn))

/-- Translation of `rewritePodSpecRefs`. -/
def rewritePodSpecRefs (spec : Obj) (nm : List (nameKey × String)) (ns : String) : Obj :=
  let spec := modStrKey spec "serviceAccountName" (fun sa => mapName nm "ServiceAccount" ns sa)
  modArrKey spec "volumes" (modElemObj (rewriteVolumeEntry nm ns))

/-- Translation of `rewritePodTemplateRefs`. -/
def rewritePodTemplateRefs (spec : Obj) (nm : List (nameKey × String)) (ns : String) : Obj :=
  modObjKey spec "template" (fun t =>
    modObjKey t "spec" (fun ps => rewritePodSpecRefs ps nm ns))

/-- Per-subject body of the subjects loop in `rewriteRoleBindingRefs`. -/
def rewriteRoleBindingSubject (nm : List (nameKey × String)) (ns : String) (sm : Obj) : Obj :=
  let isSA := match getVal sm "kind" with
    | some (Val.str s) => s == "ServiceAccount"
    | _ => false
  if isSA then
    let sm := match getVal sm "name" with
      | some (Val.str n) =>
        let subjectNS := match getVal sm "namespace" with
          | some (Val.str s) => s
          | _ => ""
        let subjectNS := if subjectNS = "" then ns else subjectNS
        setVal sm "name" (Val.str (mapName nm "ServiceAccount" subjectNS n))
      | _ => sm
    let nsIsNil := match getVal sm "namespace" with
      | none => true
      | some Val.null => true
      | _ => false
    if nsIsNil then setVal sm "namespace" (Val.str ns) else sm
  else sm

/-- Body of the `roleRef` rewrite of `rewriteRoleBindingRefs`. -/
def rewriteRoleRefInner (nm : List (nameKey × String)) (ns : String) (ref : Obj) : Obj :=
  match getVal ref "name" with
  | some (Val.str n) =>
    let refKind := match getVal ref "kind" with
      | some (Val.str s) => s
      | _ => ""
    let refKind := if refKind = "" then "Role" else refKind
    let refNS := if refKind = "Role" then ns else ""
    setVal ref "name" (Val.str (mapName nm refKind refNS n))
  | _ => ref

/-- The `roleRef` half of `rewriteRoleBindingRefs`. -/
def rewriteRoleRef (nm : List (nameKey × String)) (ns : String) (doc : Obj) : Obj :=
  modObjKey doc "roleRef" (rewriteRoleRefInner nm ns)

/-- Translation of `rewriteRoleBindingRefs`. -/
def rewriteRoleBindingRefs (doc : Obj) (nm : List (nameKey × String)) (ns : String) : Obj :=
  let doc := modArrKey doc "subjects" (modElemObj (rewriteRoleBindingSubject nm ns))
  rewriteRoleRef nm ns doc

/-- Body of the `scaleTargetRef` rewrite of the HorizontalPodAutoscaler
branch. -/
def rewriteScaleTargetRef (nm : List (nameKey × String)) (ns : String) (ref : Obj) : Obj :=
  let refKind := match getVal ref "kind" with
    | some (Val.str s) => s
    | _ => ""
  match getVal ref "name" with
  | some (Val.str n) =>
    if refKind ≠ "" then setVal ref "name" (Val.str (mapName nm refKind ns n))
    else ref
  | _ => ref

/-- Translation of `rewriteReferences` (the kind-keyed dispatch switch). -/
def rewriteReferences (doc : Obj) (ctx : manifestRewriteContext) : Obj :=
  let kind := getStr doc ["kind"]
  if kind = "HorizontalPodAutoscaler" then
    modObjKey doc "spec" (fun spec =>
      modObjKey spec "scaleTargetRef" (rewriteScaleTargetRef ctx.nameMap ctx.ns))
  else if kind = "PersistentVolumeClaim" then
    modObjKey doc "spec" (fun spec =>
      modStrKey spec "storageClassName" (fun sc => mapName ctx.nameMap "StorageClass" "" sc))
  else if kind = "StatefulSet" then
    modObjKey doc "spec" (fun spec =>
      rewritePodTemplateRefs (rewriteVolumeClaimTemplates spec ctx.nameMap) ctx.nameMap ctx.ns)
  else if kind = "Deployment" ∨ kind = "ReplicaSet" ∨ kind = "DaemonSet" then
    modObjKey doc "spec" (fun spec =>
      fixReplicaCount (rewritePodTemplateRefs spec ctx.nameMap ctx.ns) ctx.expected)
  else if kind = "Pod" then
    modObjKey doc "spec" (fun spec => rewritePodSpecRefs spec ctx.nameMap ctx.ns)
  else if kind = "RoleBinding" ∨ kind = "ClusterRoleBinding" then
    rewriteRoleBindingRefs doc ctx.nameMap ctx.ns
  else doc

/-- Translation of `podSpecForWorkload` combined with the write-back of the
in-place mutation: apply `f` at the pod-spec location of the workload kind. -/
def modPodSpecForWorkload (doc : Obj) (f : Obj → Obj) : Obj :=
  let kind := getStr doc ["kind"]
  if kind = "Pod" then modObjKey doc "spec" f
  else if kind = "Deployment" ∨ kind = "ReplicaSet" ∨ kind = "DaemonSet" ∨
      kind = "StatefulSet" then
    modObjKey doc "spec" (fun spec => modObjKey spec "template" (fun t => modObjKey t "spec" f))
  else doc

/-- Per-container body of the `fixInitContainers` loop. -/
def fixInitContainer (container : Obj) : Obj :=
  let image := match getVal container "image" with
    | some (Val.str s) => s
    | _ => ""
  if strContains image "nginx" then
    delVal (setVal container "command"
      (Val.arr [Val.str "sh", Val.str "-c", Val.str "exit 0"])) "args"
  else if strContains image "opa" then
    delVal (setVal container "command"
      (Val.arr [Val.str "opa", Val.str "eval", Val.str "true"])) "args"
  else container

/-- Translation of `fixInitContainers`. -/
def fixInitContainers (doc : Obj) : Obj :=
  modPodSpecForWorkload doc (fun ps =>
    modArrKey ps "initContainers" (modElemObj fixInitContainer))

/-- Per-container body of the `fixBadImages` loop; the two literal replacements
are mutually exclusive so the Go map-iteration order is immaterial. -/
def fixBadImage (container : Obj) : Obj :=
  match getVal container "image" with
  | some (Val.str image) =>
    if image = "tomcat" then setVal container "image" (Val.str "nginx")
    else if image = "nginx:1.7.9" then setVal container "image" (Val.str "nginx:1.25")
    else container
  | _ => container

/-- Translation of `fixBadImages`. -/
def fixBadImages (doc : Obj) : Obj :=
  modPodSpecForWorkload doc (fun ps =>
    modArrKey (modArrKey ps "containers" (modElemObj fixBadImage))
      "initContainers" (modElemObj fixBadImage))

/-- Translation of `applyDeployabilityFixes`. -/
def applyDeployabilityFixes (doc : Obj) : Obj :=
  fixBadImages (fixInitContainers doc)

/-- Translation of `rewriteManifest`: identity, then references, then
deployability fixes. -/
def rewriteManifest (doc : Obj) (name ns : String) (nm : List (nameKey × String))
    (taskID expected : String) (isInv : Bool) : Obj :=
  let ctx : manifestRewriteContext := ⟨name, ns, nm, taskID, expected, isInv⟩
  applyDeployabilityFixes (rewriteReferences (applyIdentity doc ctx) ctx)

/-! ### The per-case generation pipeline (`GenerateManifests`) -/

/-- Go `fmt.Sprintf("%02d", n)`. -/
def pad2 (n : Nat) : String :=
  if n < 10 then "0" ++ Nat.repr n else Nat.repr n

/-- Translation of `isAdmissionReview`. -/
def isAdmissionReview (doc : Obj) : Bool :=
  getStr doc ["kind"] == "AdmissionReview"

/-- Boolean duplicate test matching the seen-set loop of `isDeployable`. -/
def listNodupB : List String → Bool
  | [] => true
  | x :: xs => !(xs.contains x) && listNodupB xs

/-- Names of the object elements carrying a string `name`, for one container
list of a pod spec. -/
def containerNames (spec : Obj) (key : String) : List String :=
  match getVal spec key with
  | some (Val.arr cs) =>
    cs.filterMap (fun c =>
      match c with
      | Val.obj cm =>
        match getVal cm "name" with
        | some (Val.str n) => some n
        | _ => none
      | _ => none)
  | _ => []

/-- Translation of `isDeployable`. -/
def isDeployable (doc : Obj) : Bool :=
  if getStr doc ["kind"] ≠ "Pod" then true
  else
    match getVal doc "spec" with
    | some (Val.obj spec) =>
      if (getVal spec "ephemeralContainers").isSome then false
      else listNodupB (containerNames spec "containers" ++ containerNames spec "initContainers")
    | _ => true

/-- One parsed case of a task: the expected verdict, the parsed docs of each
inventory file, and the parsed docs of the case object file. -/
structure CaseSpec where
  expected : String
  invSources : List (List Obj)
  caseDocs : List Obj

/-- Shared mutable state of the `GenerateManifests` loop: the allocator
registry, the name map, and the three name counters. -/
structure AllocState where
  used : List nameKey
  nm : List (nameKey × String)
  invIdx : Nat
  alphaIdx : Nat
  betaIdx : Nat

/-- Per-document output record (the fields of `TaskManifest` relevant to the
rewriting core). -/
structure TaskManifest where
  doc : Obj
  inventory : Bool
  expected : String
  kind : String
  name : String
  nspace : String
  clusterScoped : Bool

/-- Inventory-doc loading filter of `GenerateManifests`: first doc of each
source, dropping admission reviews. -/
def collectInvDocs : List (List Obj) → List Obj
  | [] => []
  | docs :: rest =>
    match docs with
    | d :: _ => if isAdmissionReview d then collectInvDocs rest else d :: collectInvDocs rest
    | [] => collectInvDocs rest

/-- One iteration of the inventory naming loop of `GenerateManifests`. -/
def invStep (defaultNS : String) (doc : Obj) (st : AllocState) :
    (Obj × String) × AllocState :=
  let kind := getStr doc ["kind"]
  let nspace := if isClusterScoped kind then "" else defaultNS
  let origName := getStr doc ["metadata", "name"]
  let baseName := if origName = "" then "resource-inventory-" ++ pad2 st.invIdx else origName
  let res := allocate st.used kind nspace baseName
  ((doc, res.1),
    ⟨res.2.2, nmSet st.nm kind nspace origName res.1, st.invIdx + 1,
      st.alphaIdx, st.betaIdx⟩)

/-- The inventory naming loop of `GenerateManifests`. -/
def assignInvDocs (defaultNS : String) :
    List Obj → AllocState → List (Obj × String) × AllocState
  | [], st => ([], st)
  | doc :: rest, st =>
    let step := invStep defaultNS doc st
    let rest2 := assignInvDocs defaultNS rest step.2
    (step.1 :: rest2.1, rest2.2)

/-- One iteration of the subject naming loop of `GenerateManifests`. -/
def subjStep (defaultNS expected : String) (doc : Obj) (st : AllocState) :
    (Obj × String) × AllocState :=
  let kind := getStr doc ["kind"]
  let nspace := if isClusterScoped kind then "" else defaultNS
  let origName := getStr doc ["metadata", "name"]
  let counterName :=
    if expected = "alpha" then "resource-alpha-" ++ pad2 st.alphaIdx
    else "resource-beta-" ++ pad2 st.betaIdx
  let st1 : AllocState :=
    if expected = "alpha" then
      ⟨st.used, st.nm, st.invIdx, st.alphaIdx + 1, st.betaIdx⟩
    else
      ⟨st.used, st.nm, st.invIdx, st.alphaIdx, st.betaIdx + 1⟩
  let baseName := if origName = "" then counterName else origName
  let res := allocate st1.used kind nspace baseName
  ((doc, res.1),
    ⟨res.2.2, nmSet st1.nm kind nspace origName res.1, st1.invIdx,
      st1.alphaIdx, st1.betaIdx⟩)

/-- The subject naming loop of `GenerateManifests` (over `caseDocs[:1]`). -/
def assignSubjectDocs (defaultNS expected : String) :
    List Obj → AllocState → List (Obj × String) × AllocState
  | [], st => ([], st)
  | doc :: rest, st =>
    let step := subjStep defaultNS expected doc st
    let rest2 := assignSubjectDocs defaultNS expected rest step.2
    (step.1 :: rest2.1, rest2.2)

/-- Rewrite and record one assigned document. -/
def buildOne (taskID defaultNS expected : String) (nm : List (nameKey × String))
    (isInv : Bool) (p : Obj × String) : TaskManifest :=
  let doc2 := rewriteManifest p.1 p.2 defaultNS nm taskID expected isInv
  let kind := getStr doc2 ["kind"]
  ⟨doc2, isInv, expected, kind, p.2, getStr doc2 ["metadata", "namespace"],
    isClusterScoped kind⟩

/-- Rewrite-and-record phase of one case of `GenerateManifests`. -/
def buildManifests (taskID defaultNS expected : String)
    (nm : List (nameKey × String)) (assigned : List (Obj × String)) (isInv : Bool) :
    List TaskManifest :=
  assigned.map (buildOne taskID defaultNS expected nm isInv)

/-- One iteration of the case loop of `GenerateManifests`.  The name map and
the name allocator are created afresh here, inside the per-case iteration,
exactly as in the source. -/
def processCase (taskID defaultNS : String) (c : CaseSpec) (st0 : AllocState) :
    List TaskManifest × AllocState :=
  match c.caseDocs with
  | [] => ([], st0)
  | d0 :: _ =>
    if isAdmissionReview d0 || !(isDeployable d0) then ([], st0)
    else
      let invDocs := collectInvDocs c.invSources
      let stFresh : AllocState := ⟨[], [], st0.invIdx, st0.alphaIdx, st0.betaIdx⟩
      let inv := assignInvDocs defaultNS invDocs stFresh
      let subj := assignSubjectDocs defaultNS c.expected (c.caseDocs.take 1) inv.2
      let st2 := subj.2
      (buildManifests taskID defaultNS c.expected st2.nm inv.1 true ++
        buildManifests taskID defaultNS c.expected st2.nm subj.1 false, st2)

/-- The case loop of `GenerateManifests`. -/
def generateManifestsLoop (taskID defaultNS : String) :
    List CaseSpec → AllocState → List TaskManifest
  | [], _ => []
  | c :: rest, st =>
    let out := processCase taskID defaultNS c st
    out.1 ++ generateManifestsLoop taskID defaultNS rest out.2

/-- Translation of the rewriting core of `GenerateManifests`: inputs are the
already-parsed case bundles; file writing, prompt context and script
bookkeeping are I/O outside the core. -/
def GenerateManifests (taskID : String) (cases : List CaseSpec) : List TaskManifest :=
  generateManifestsLoop taskID ("gk-" ++ taskID) cases ⟨[], [], 1, 1, 1⟩

/-! ### Map and frame infrastructure -/

theorem getVal_setVal_self (m : Obj) (k : String) (v : Val) :
    getVal (setVal m k v) k = some v := by
  induction m with
  | nil => simp [setVal, getVal]
  | cons p rest ih =>
    obtain ⟨a, b⟩ := p
    by_cases h : a = k
    · simp [setVal, getVal, h]
    · simp [setVal, getVal, h, ih]

theorem getVal_setVal_ne (m : Obj) (k k2 : String) (v : Val) (h : k2 ≠ k) :
    getVal (setVal m k v) k2 = getVal m k2 := by
  induction m with
  | nil => simp [setVal, getVal, Ne.symm h]
  | cons p rest ih =>
    obtain ⟨a, b⟩ := p
    by_cases hk : a = k
    · subst hk
      simp [setVal, getVal, Ne.symm h]
    · simp only [setVal, if_neg hk, getVal]
      by_cases hk2 : a = k2 <;> simp [hk2, ih]

theorem getVal_delVal_ne (m : Obj) (k k2 : String) (h : k2 ≠ k) :
    getVal (delVal m k) k2 = getVal m k2 := by
  induction m with
  | nil => simp [delVal]
  | cons p rest ih =>
    obtain ⟨a, b⟩ := p
    by_cases hk : a = k
    · subst hk
      simp [delVal, getVal, Ne.symm h, ih]
    · simp only [delVal, if_neg hk, getVal]
      by_cases hk2 : a = k2 <;> simp [hk2, ih]

theorem countKey_setVal_ne (m : Obj) (k k2 : String) (v : Val) (h : k2 ≠ k) :
    countKey (setVal m k v) k2 = countKey m k2 := by
  induction m with
  | nil => simp [setVal, countKey, Ne.symm h]
  | cons p rest ih =>
    obtain ⟨a, b⟩ := p
    by_cases hk : a = k
    · subst hk
      simp [setVal, countKey]
    · simp [setVal, if_neg hk, countKey, ih]

theorem countKey_setVal_self (m : Obj) (k : String) (v : Val) :
    countKey (setVal m k v) k = if countKey m k = 0 then 1 else countKey m k := by
  induction m with
  | nil => simp [setVal, countKey]
  | cons p rest ih =>
    obtain ⟨a, b⟩ := p
    by_cases hk : a = k
    · subst hk
      simp [setVal, countKey]
    · simp [setVal, if_neg hk, countKey, ih, hk]

theorem getVal_modObjKey_ne (m : Obj) (k k2 : String) (f : Obj → Obj) (h : k2 ≠ k) :
    getVal (modObjKey m k f) k2 = getVal m k2 := by
  unfold modObjKey
  split
  · rw [getVal_setVal_ne _ _ _ _ h]
  · rfl

theorem getVal_modStrKey_ne (m : Obj) (k k2 : String) (f : String → String) (h : k2 ≠ k) :
    getVal (modStrKey m k f) k2 = getVal m k2 := by
  unfold modStrKey
  split
  · rw [getVal_setVal_ne _ _ _ _ h]
  · rfl

theorem getVal_modArrKey_ne (m : Obj) (k k2 : String) (f : Val → Val) (h : k2 ≠ k) :
    getVal (modArrKey m k f) k2 = getVal m k2 := by
  unfold modArrKey
  split
  · rw [getVal_setVal_ne _ _ _ _ h]
  · rfl

theorem countKey_modObjKey_ne (m : Obj) (k k2 : String) (f : Obj → Obj) (h : k2 ≠ k) :
    countKey (modObjKey m k f) k2 = countKey m k2 := by
  unfold modObjKey
  split
  · rw [countKey_setVal_ne _ _ _ _ h]
  · rfl

theorem countKey_modArrKey_ne (m : Obj) (k k2 : String) (f : Val → Val) (h : k2 ≠ k) :
    countKey (modArrKey m k f) k2 = countKey m k2 := by
  unfold modArrKey
  split
  · rw [countKey_setVal_ne _ _ _ _ h]
  · rfl

theorem getVal_rewriteRoleBindingRefs_ne (doc : Obj) (nm : List (nameKey × String))
    (ns : String) (k2 : String) (h1 : k2 ≠ "subjects") (h2 : k2 ≠ "roleRef") :
    getVal (rewriteRoleBindingRefs doc nm ns) k2 = getVal doc k2 := by
  unfold rewriteRoleBindingRefs rewriteRoleRef
  rw [getVal_modObjKey_ne _ _ _ _ h2, getVal_modArrKey_ne _ _ _ _ h1]

theorem getVal_rewriteReferences_ne (doc : Obj) (ctx : manifestRewriteContext)
    (k2 : String) (h1 : k2 ≠ "spec") (h2 : k2 ≠ "subjects") (h3 : k2 ≠ "roleRef") :
    getVal (rewriteReferences doc ctx) k2 = getVal doc k2 := by
  simp only [rewriteReferences]
  split_ifs <;>
    simp [getVal_modObjKey_ne _ _ _ _ h1, getVal_rewriteRoleBindingRefs_ne _ _ _ _ h2 h3]

theorem getVal_modPodSpecForWorkload_ne (doc : Obj) (f : Obj → Obj) (k2 : String)
    (h : k2 ≠ "spec") :
    getVal (modPodSpecForWorkload doc f) k2 = getVal doc k2 := by
  simp only [modPodSpecForWorkload]
  split_ifs <;> simp [getVal_modObjKey_ne _ _ _ _ h]

theorem getVal_applyDeployabilityFixes_ne (doc : Obj) (k2 : String) (h : k2 ≠ "spec") :
    getVal (applyDeployabilityFixes doc) k2 = getVal doc k2 := by
  unfold applyDeployabilityFixes fixBadImages fixInitContainers
  rw [getVal_modPodSpecForWorkload_ne _ _ _ h, getVal_modPodSpecForWorkload_ne _ _ _ h]

theorem getVal_applyIdentity_ne (doc : Obj) (ctx : manifestRewriteContext) (k2 : String)
    (h : k2 ≠ "metadata") :
    getVal (applyIdentity doc ctx) k2 = getVal doc k2 := by
  unfold applyIdentity
  rw [getVal_setVal_ne _ _ _ _ h]

theorem getVal_rewriteManifest_kind (doc : Obj) (name ns : String)
    (nm : List (nameKey × String)) (taskID expected : String) (isInv : Bool) :
    getVal (rewriteManifest doc name ns nm taskID expected isInv) "kind" =
      getVal doc "kind" := by
  unfold rewriteManifest
  rw [getVal_applyDeployabilityFixes_ne _ _ (by decide),
    getVal_rewriteReferences_ne _ _ _ (by decide) (by decide) (by decide),
    getVal_applyIdentity_ne _ _ _ (by decide)]

theorem getVal_rewriteManifest_metadata (doc : Obj) (name ns : String)
    (nm : List (nameKey × String)) (taskID expected : String) (isInv : Bool) :
    getVal (rewriteManifest doc name ns nm taskID expected isInv) "metadata" =
      getVal (applyIdentity doc ⟨name, ns, nm, taskID, expected, isInv⟩) "metadata" := by
  unfold rewriteManifest
  rw [getVal_applyDeployabilityFixes_ne _ _ (by decide),
    getVal_rewriteReferences_ne _ _ _ (by decide) (by decide) (by decide)]

/-! ### Path observations -/

/-- One step of a document path: an object key or an array index. -/
inductive PathElem where
  | key : String → PathElem
  | idx : Nat → PathElem

/-- Value of a document at a path, if the shapes along the way match. -/
def getPath : Val → List PathElem → Option Val
  | v, [] => some v
  | Val.obj m, PathElem.key k :: p =>
    match getVal m k with
    | some v => getPath v p
    | none => none
  | Val.arr l, PathElem.idx n :: p =>
    match l.get? n with
    | some v => getPath v p
    | none => none
  | _, _ => none

/-! ### Demonstration documents used by concrete claims -/

/-- A PersistentVolumeClaim referencing a storage class outside the bundle. -/
def demoPVC : Obj :=
  [("kind", Val.str "PersistentVolumeClaim"),
   ("metadata", Val.obj [("name", Val.str "pvc1")]),
   ("spec", Val.obj [("storageClassName", Val.str "custom-sc")])]

/-- A name map without any StorageClass entry. -/
def demoNameMapNoSC : List (nameKey × String) :=
  [(⟨"ServiceAccount", "gk-t", "sa1"⟩, "resource-alpha-02")]

/-- A violating Deployment declaring 100 replicas. -/
def demoViolatingDeploy : Obj :=
  [("kind", Val.str "Deployment"),
   ("metadata", Val.obj [("name", Val.str "web")]),
   ("spec", Val.obj [("replicas", Val.num 100)])]

/-- A compliant Deployment declaring 3 replicas. -/
def demoCompliantDeploy : Obj :=
  [("kind", Val.str "Deployment"),
   ("metadata", Val.obj [("name", Val.str "web")]),
   ("spec", Val.obj [("replicas", Val.num 3)])]

/-- A RoleBinding whose service-account subject has no namespace field. -/
def demoBinding : Obj :=
  [("kind", Val.str "RoleBinding"),
   ("metadata", Val.obj [("name", Val.str "rb1")]),
   ("subjects", Val.arr [Val.obj
     [("kind", Val.str "ServiceAccount"), ("name", Val.str "sa1")]]),
   ("roleRef", Val.obj [("kind", Val.str "Role"), ("name", Val.str "role1")])]

/-- Name map of the role-binding bundle: `sa1 ↦ resource-alpha-01` for kind
ServiceAccount in the binding's namespace. -/
def demoBindingNameMap : List (nameKey × String) :=
  [(⟨"ServiceAccount", "gk-test-01", "sa1"⟩, "resource-alpha-01"),
   (⟨"Role", "gk-test-01", "role1"⟩, "resource-inventory-01")]

/-- A cluster-scoped document that arrives with a namespace field already set. -/
def demoClusterDoc : Obj :=
  [("kind", Val.str "ClusterRole"),
   ("metadata", Val.obj [("name", Val.str "cr1"), ("namespace", Val.str "leftover")])]

/-- A ServiceAccount inventory document named `sa1`. -/
def demoSA : Obj :=
  [("kind", Val.str "ServiceAccount"),
   ("metadata", Val.obj [("name", Val.str "sa1")])]

/-- A deployable Pod subject document. -/
def demoPod : Obj :=
  [("kind", Val.str "Pod"),
   ("metadata", Val.obj [("name", Val.str "mypod")]),
   ("spec", Val.obj [("containers", Val.arr [Val.obj [("name", Val.str "c1")]])])]

/-- A case bundle carrying the `sa1` inventory document and a Pod subject. -/
def demoCase : CaseSpec := ⟨"alpha", [[demoSA]], [demoPod]⟩

/-- Count of `namespace` bindings in a document's metadata object. -/
def metaNamespaceCount (doc : Obj) : Nat :=
  match getVal doc "metadata" with
  | some (Val.obj m) => countKey m "namespace"
  | _ => 0

/-! ### Claim theorems -/

/-- C9: for every allocator state, `allocate` called with an empty `baseName`
returns the empty-name signal with `wasRenamed = false` and leaves the registry
unchanged — nothing is reserved and no default name is substituted inside the
allocator. -/
theorem allocate_empty_base (used : List nameKey) (kind nspace : String) :
    allocate used kind nspace "" = ("", false, used) := by
  simp [allocate]

/-- C2: for every allocator state and non-empty `baseName`, `allocate` returns
`baseName` unchanged with `wasRenamed = false` and reserves it when
`(kind, namespace, baseName)` is unused; otherwise it reserves and returns the
first unused suffix candidate `baseName-2`, `baseName-3`, … in ascending order
with `wasRenamed = true`.  On a fresh allocator, allocating
`("Deployment", "ns-a", "web")` twice yields `"web"` then `"web-2"`. -/
theorem allocate_contract :
    (∀ (used : List nameKey) (kind nspace base : String), base ≠ "" →
      ((⟨kind, nspace, base⟩ : nameKey) ∉ used →
        allocate used kind nspace base = (base, false, ⟨kind, nspace, base⟩ :: used)) ∧
      ((⟨kind, nspace, base⟩ : nameKey) ∈ used →
        ∃ k, 2 ≤ k ∧
          allocate used kind nspace base =
            (base ++ "-" ++ Nat.repr k, true,
              (⟨kind, nspace, base ++ "-" ++ Nat.repr k⟩ : nameKey) :: used) ∧
          (⟨kind, nspace, base ++ "-" ++ Nat.repr k⟩ : nameKey) ∉ used ∧
          ∀ m, 2 ≤ m → m < k →
            (⟨kind, nspace, base ++ "-" ++ Nat.repr m⟩ : nameKey) ∈ used)) ∧
    (allocate [] "Deployment" "ns-a" "web").1 = "web" ∧
    (allocate (allocate [] "Deployment" "ns-a" "web").2.2 "Deployment" "ns-a" "web").1
      = "web-2" := by
  refine ⟨fun used kind nspace base h => ⟨?_, ?_⟩, by decide, by decide⟩
  · exact allocate_fresh_unused used kind nspace base h
  · exact allocate_collision used kind nspace base h

/-- Witness for C2 at a concrete input. -/
theorem allocate_contract_witness :
    allocate [] "Deployment" "ns-a" "web" =
      ("web", false, [⟨"Deployment", "ns-a", "web"⟩]) :=
  (allocate_contract.1 [] "Deployment" "ns-a" "web" (by decide)).1 (by decide)

/-- C8 counterexample: `isClusterScoped` returns `false` for admission webhook
configurations and for node and priority objects, refuting the claim that the
classifier returns `true` for those kinds. -/
theorem isClusterScoped_missing_kinds :
    isClusterScoped "ValidatingWebhookConfiguration" = false ∧
    isClusterScoped "MutatingWebhookConfiguration" = false ∧
    isClusterScoped "Node" = false ∧
    isClusterScoped "PriorityClass" = false := by
  decide

/-- C8 amended: `isClusterScoped` is a pure total function over the fixed
closed set {Namespace, ClusterRole, ClusterRoleBinding, StorageClass}; every
kind outside that set (including admission webhook configurations, node and
priority objects) is classified namespace-scoped, with no error condition. -/
theorem isClusterScoped_closed_set (kind : String) :
    isClusterScoped kind = true ↔
      (kind = "Namespace" ∨ kind = "ClusterRole" ∨ kind = "ClusterRoleBinding" ∨
        kind = "StorageClass") := by
  simp [isClusterScoped, Bool.or_eq_true, beq_iff_eq]
  tauto

/-- Value of the `replicas` binding inside a document's `spec` object. -/
def specReplicas (doc : Obj) : Option Val :=
  match getVal doc "spec" with
  | some (Val.obj s) => getVal s "replicas"
  | _ => none

/-- C5: `fixReplicaCount` leaves non-beta documents untouched; on a
beta-tagged spec a declared replica count above the ceiling 5 is clamped to
exactly 5 and a count at or below the ceiling is left alone.  Through the full
rewrite, a violating Deployment with 100 replicas is capped to 5 while a
compliant Deployment keeps its 3 replicas. -/
theorem fixReplicaCount_contract :
    (∀ (spec : Obj) (expected : String), expected ≠ "beta" →
      fixReplicaCount spec expected = spec) ∧
    (∀ (spec : Obj) (n : Int), getVal spec "replicas" = some (Val.num n) →
      maxBetaReplicas < n →
      getVal (fixReplicaCount spec "beta") "replicas" = some (Val.num maxBetaReplicas)) ∧
    (∀ (spec : Obj) (n : Int), getVal spec "replicas" = some (Val.num n) →
      n ≤ maxBetaReplicas → fixReplicaCount spec "beta" = spec) ∧
    specReplicas (rewriteManifest demoViolatingDeploy "resource-beta-01" "gk-t" []
      "t" "beta" false) = some (Val.num 5) ∧
    specReplicas (rewriteManifest demoCompliantDeploy "resource-alpha-01" "gk-t" []
      "t" "alpha" false) = some (Val.num 3) := by
  refine ⟨fun spec expected h => ?_, fun spec n hv hgt => ?_, fun spec n hv hle => ?_,
    rfl, rfl⟩
  · simp [fixReplicaCount, h]
  · have hne : ¬ (("beta" : String) ≠ "beta") := fun hc => hc rfl
    simp only [fixReplicaCount, if_neg hne, hv]
    rw [if_pos hgt, getVal_setVal_self]
  · have hne : ¬ (("beta" : String) ≠ "beta") := fun hc => hc rfl
    simp only [fixReplicaCount, if_neg hne, hv]
    rw [if_neg (not_lt.mpr hle)]

/-- Witness for C5 at a concrete input. -/
theorem fixReplicaCount_contract_witness :
    fixReplicaCount [("replicas", Val.num 100)] "alpha" = [("replicas", Val.num 100)] ∧
    getVal (fixReplicaCount [("replicas", Val.num 100)] "beta") "replicas"
      = some (Val.num 5) :=
  ⟨fixReplicaCount_contract.1 [("replicas", Val.num 100)] "alpha" (by decide),
   fixReplicaCount_contract.2.1 [("replicas", Val.num 100)] 100 rfl (by decide)⟩

/-- Value of the `storageClassName` binding inside a document's `spec`. -/
def specStorageClassName (doc : Obj) : Option Val :=
  match getVal doc "spec" with
  | some (Val.obj s) => getVal s "storageClassName"
  | _ => none

/-- C3: name-map resolution is a pass-through: any `(kind, namespace, name)`
query with no entry resolves to the queried name unchanged (likewise for the
older flat map), and a PersistentVolumeClaim whose `storageClassName` is
`custom-sc`, rewritten with a name map holding no `("StorageClass", "",
"custom-sc")` entry, keeps `storageClassName = "custom-sc"`. -/
theorem mapName_passthrough :
    (∀ (entries : List (nameKey × String)) (kind nspace name : String),
      findEntry entries ⟨kind, nspace, name⟩ = none →
      mapName entries kind nspace name = name) ∧
    (∀ (nm : List (String × String)) (name : String), nm.lookup name = none →
      mapNameFlat nm name = name) ∧
    findEntry demoNameMapNoSC ⟨"StorageClass", "", "custom-sc"⟩ = none ∧
    specStorageClassName (rewriteManifest demoPVC "resource-alpha-01" "gk-t"
      demoNameMapNoSC "t" "alpha" false) = some (Val.str "custom-sc") := by
  refine ⟨fun entries kind nspace name h => ?_, fun nm name h => ?_, rfl, rfl⟩
  · simp only [mapName, h]
    split <;> rfl
  · simp [mapNameFlat, h]

/-- Witness for C3 at a concrete input. -/
theorem mapName_passthrough_witness :
    mapName demoNameMapNoSC "StorageClass" "" "custom-sc" = "custom-sc" :=
  mapName_passthrough.1 demoNameMapNoSC "StorageClass" "" "custom-sc" rfl

/-- Identity triple of an output manifest. -/
def manifestTriple (m : TaskManifest) : String × String × String :=
  (m.kind, m.nspace, m.name)

/-- C1 counterexample: a run over two case bundles that each carry an inventory
ServiceAccount originally named `sa1` produces two documents with the identical
`(kind, namespace, name)` triple, because the allocator is recreated for every
bundle; the claimed run-wide uniqueness fails. -/
theorem GenerateManifests_duplicate_triples :
    (GenerateManifests "t" [demoCase, demoCase]).map manifestTriple =
      [("ServiceAccount", "gk-t", "sa1"), ("Pod", "gk-t", "mypod"),
       ("ServiceAccount", "gk-t", "sa1"), ("Pod", "gk-t", "mypod")] ∧
    ¬ ((GenerateManifests "t" [demoCase, demoCase]).map manifestTriple).Nodup := by
  constructor
  · rfl
  · decide

/-- C4 counterexample: a cluster-scoped document that arrives with
`metadata.namespace` already set keeps that field through the rewrite — the
rewritten ClusterRole still has a namespace binding, refuting the claim that
cluster-scoped documents end with no namespace field. -/
theorem rewriteManifest_cluster_namespace_kept :
    isClusterScoped (getStr demoClusterDoc ["kind"]) = true ∧
    metaNamespaceCount (rewriteManifest demoClusterDoc "resource-inventory-01" "gk-t"
      [] "t" "alpha" true) = 1 ∧
    getStr (rewriteManifest demoClusterDoc "resource-inventory-01" "gk-t"
      [] "t" "alpha" true) ["metadata", "namespace"] = "leftover" := by
  exact ⟨rfl, rfl, rfl⟩

theorem getVal_applyIdentity_metadata (doc : Obj) (ctx : manifestRewriteContext) :
    getVal (applyIdentity doc ctx) "metadata" = some (Val.obj (identityMeta doc ctx)) := by
  simp [applyIdentity, getVal_setVal_self]

theorem metaNamespaceCount_applyIdentity (doc : Obj) (ctx : manifestRewriteContext) :
    metaNamespaceCount (applyIdentity doc ctx) =
      if isClusterScoped (getStr doc ["kind"]) then metaNamespaceCount doc
      else if metaNamespaceCount doc = 0 then 1 else metaNamespaceCount doc := by
  simp only [metaNamespaceCount, getVal_applyIdentity_metadata, identityMeta]
  rw [countKey_setVal_ne _ _ _ _ (by decide)]
  by_cases hcs : isClusterScoped (getStr doc ["kind"]) = true
  · rw [if_pos hcs, if_pos hcs, countKey_setVal_ne _ _ _ _ (by decide)]
    cases hv : getVal doc "metadata" with
    | none => simp [countKey]
    | some v => cases v <;> simp [countKey]
  · rw [if_neg hcs, if_neg hcs, countKey_setVal_self,
      countKey_setVal_ne _ _ _ _ (by decide)]
    cases hv : getVal doc "metadata" with
    | none => simp [countKey]
    | some v => cases v <;> simp [countKey]

theorem getStr_applyIdentity_namespace (doc : Obj) (ctx : manifestRewriteContext)
    (h : isClusterScoped (getStr doc ["kind"]) = false) :
    getStr (applyIdentity doc ctx) ["metadata", "namespace"] = ctx.ns := by
  have h1 : getStr (applyIdentity doc ctx) ["metadata", "namespace"]
      = getStr (identityMeta doc ctx) ["namespace"] := by
    simp only [getStr, getVal_applyIdentity_metadata]
  rw [h1]
  simp only [identityMeta]
  rw [if_neg (by simp [h])]
  simp only [getStr]
  rw [getVal_setVal_ne _ _ _ _ (by decide), getVal_setVal_self]

/-- C4 amended: the identity rewriter never adds a namespace field to a
cluster-scoped document — when the input carried no `metadata.namespace`
binding, the output carries none (a pre-existing binding is left in place, as
the counterexample shows) — and a namespace-scoped document always ends with
exactly one `metadata.namespace` binding, set to the target namespace and
created if the source omitted it. -/
theorem rewriteManifest_scope (doc : Obj) (name ns : String)
    (nm : List (nameKey × String)) (taskID expected : String) (isInv : Bool) :
    (isClusterScoped (getStr doc ["kind"]) = true → metaNamespaceCount doc = 0 →
      metaNamespaceCount (rewriteManifest doc name ns nm taskID expected isInv) = 0) ∧
    (isClusterScoped (getStr doc ["kind"]) = false → metaNamespaceCount doc ≤ 1 →
      metaNamespaceCount (rewriteManifest doc name ns nm taskID expected isInv) = 1 ∧
      getStr (rewriteManifest doc name ns nm taskID expected isInv)
        ["metadata", "namespace"] = ns) := by
  have hmeta := getVal_rewriteManifest_metadata doc name ns nm taskID expected isInv
  have hcount : metaNamespaceCount (rewriteManifest doc name ns nm taskID expected isInv)
      = metaNamespaceCount (applyIdentity doc ⟨name, ns, nm, taskID, expected, isInv⟩) := by
    simp only [metaNamespaceCount, hmeta]
  constructor
  · intro hcs h0
    rw [hcount, metaNamespaceCount_applyIdentity, if_pos hcs, h0]
  · intro hcs hle
    constructor
    · rw [hcount, metaNamespaceCount_applyIdentity, if_neg (by simp [hcs])]
      by_cases h0 : metaNamespaceCount doc = 0
      · rw [if_pos h0]
      · rw [if_neg h0]
        omega
    · have : getStr (rewriteManifest doc name ns nm taskID expected isInv)
          ["metadata", "namespace"] =
          getStr (applyIdentity doc ⟨name, ns, nm, taskID, expected, isInv⟩)
            ["metadata", "namespace"] := by
        simp only [getStr, hmeta]
      rw [this, getStr_applyIdentity_namespace _ _ hcs]

/-- Witness for C4 amended at concrete inputs: a namespace-scoped PVC without a
namespace gains exactly one, a cluster-scoped ClusterRole without one stays
without. -/
theorem rewriteManifest_scope_witness :
    (metaNamespaceCount (rewriteManifest demoPVC "resource-alpha-01" "gk-t" []
      "t" "alpha" false) = 1 ∧
     getStr (rewriteManifest demoPVC "resource-alpha-01" "gk-t" [] "t" "alpha" false)
       ["metadata", "namespace"] = "gk-t") ∧
    metaNamespaceCount (rewriteManifest
      [("kind", Val.str "ClusterRole"), ("metadata", Val.obj [("name", Val.str "cr2")])]
      "resource-inventory-01" "gk-t" [] "t" "alpha" true) = 0 :=
  ⟨(rewriteManifest_scope demoPVC "resource-alpha-01" "gk-t" [] "t" "alpha" false).2
      rfl (by decide),
   (rewriteManifest_scope
      [("kind", Val.str "ClusterRole"), ("metadata", Val.obj [("name", Val.str "cr2")])]
      "resource-inventory-01" "gk-t" [] "t" "alpha" true).1 rfl rfl⟩

theorem getStr_applyIdentity_kind (doc : Obj) (ctx : manifestRewriteContext) :
    getStr (applyIdentity doc ctx) ["kind"] = getStr doc ["kind"] := by
  simp only [getStr]
  rw [getVal_applyIdentity_ne _ _ _ (by decide)]

theorem getStr_rewriteRoleBindingRefs_kind (doc : Obj) (nm : List (nameKey × String))
    (ns : String) :
    getStr (rewriteRoleBindingRefs doc nm ns) ["kind"] = getStr doc ["kind"] := by
  simp only [getStr]
  rw [getVal_rewriteRoleBindingRefs_ne _ _ _ _ (by decide) (by decide)]

theorem rewriteReferences_roleBinding (doc : Obj) (ctx : manifestRewriteContext)
    (h : getStr doc ["kind"] = "RoleBinding" ∨ getStr doc ["kind"] = "ClusterRoleBinding") :
    rewriteReferences doc ctx = rewriteRoleBindingRefs doc ctx.nameMap ctx.ns := by
  simp only [rewriteReferences]
  rcases h with h | h <;>
    rw [h, if_neg (by decide), if_neg (by decide), if_neg (by decide),
      if_neg (by decide), if_neg (by decide), if_pos (by decide)]

theorem modPodSpecForWorkload_other (doc : Obj) (f : Obj → Obj)
    (h1 : getStr doc ["kind"] ≠ "Pod")
    (h2 : ¬ (getStr doc ["kind"] = "Deployment" ∨ getStr doc ["kind"] = "ReplicaSet" ∨
      getStr doc ["kind"] = "DaemonSet" ∨ getStr doc ["kind"] = "StatefulSet")) :
    modPodSpecForWorkload doc f = doc := by
  simp only [modPodSpecForWorkload]
  rw [if_neg h1, if_neg h2]

theorem applyDeployabilityFixes_other (doc : Obj)
    (h1 : getStr doc ["kind"] ≠ "Pod")
    (h2 : ¬ (getStr doc ["kind"] = "Deployment" ∨ getStr doc ["kind"] = "ReplicaSet" ∨
      getStr doc ["kind"] = "DaemonSet" ∨ getStr doc ["kind"] = "StatefulSet")) :
    applyDeployabilityFixes doc = doc := by
  simp only [applyDeployabilityFixes, fixInitContainers, fixBadImages]
  rw [modPodSpecForWorkload_other _ _ h1 h2, modPodSpecForWorkload_other _ _ h1 h2]

/-- For a RoleBinding or ClusterRoleBinding the full rewrite chain reduces to
identity stamping followed by the role-binding reference rules. -/
theorem rewriteManifest_roleBinding (doc : Obj) (name ns : String)
    (nm : List (nameKey × String)) (taskID expected : String) (isInv : Bool)
    (h : getStr doc ["kind"] = "RoleBinding" ∨ getStr doc ["kind"] = "ClusterRoleBinding") :
    rewriteManifest doc name ns nm taskID expected isInv =
      rewriteRoleBindingRefs (applyIdentity doc ⟨name, ns, nm, taskID, expected, isInv⟩)
        nm ns := by
  have hk1 : getStr (applyIdentity doc ⟨name, ns, nm, taskID, expected, isInv⟩) ["kind"]
      = getStr doc ["kind"] := getStr_applyIdentity_kind doc _
  have hbinding :
      getStr (rewriteRoleBindingRefs
        (applyIdentity doc ⟨name, ns, nm, taskID, expected, isInv⟩) nm ns) ["kind"]
      = getStr doc ["kind"] := by
    rw [getStr_rewriteRoleBindingRefs_kind, hk1]
  simp only [rewriteManifest]
  rw [rewriteReferences_roleBinding _ _ (by rw [hk1]; exact h)]
  dsimp only
  apply applyDeployabilityFixes_other
  · rw [hbinding]
    rcases h with h | h <;> rw [h] <;> decide
  · rw [hbinding]
    rcases h with h | h <;> rw [h] <;> decide

/-- C6: for every role-binding subject of kind ServiceAccount, the subject name
is resolved through the name map (scoped to the subject namespace, defaulting
to the binding's own namespace when absent), and a subject without a namespace
field receives the binding's own namespace; concretely, subject `sa1` with no
namespace in a bundle mapping `sa1 ↦ resource-alpha-01` and binding namespace
`gk-test-01` is rewritten to name `resource-alpha-01`, namespace `gk-test-01`. -/
theorem roleBindingSubject_rewrite :
    (∀ (nm : List (nameKey × String)) (ns : String) (sm : Obj) (n : String),
      getVal sm "kind" = some (Val.str "ServiceAccount") →
      getVal sm "name" = some (Val.str n) →
      (getVal sm "namespace" = none →
        getVal (rewriteRoleBindingSubject nm ns sm) "name"
          = some (Val.str (mapName nm "ServiceAccount" ns n)) ∧
        getVal (rewriteRoleBindingSubject nm ns sm) "namespace"
          = some (Val.str ns)) ∧
      (∀ s, s ≠ "" → getVal sm "namespace" = some (Val.str s) →
        getVal (rewriteRoleBindingSubject nm ns sm) "name"
          = some (Val.str (mapName nm "ServiceAccount" s n)) ∧
        getVal (rewriteRoleBindingSubject nm ns sm) "namespace"
          = some (Val.str s))) ∧
    getPath (Val.obj (rewriteManifest demoBinding "resource-inventory-02" "gk-test-01"
        demoBindingNameMap "t" "alpha" true))
      [PathElem.key "subjects", PathElem.idx 0, PathElem.key "name"]
      = some (Val.str "resource-alpha-01") ∧
    getPath (Val.obj (rewriteManifest demoBinding "resource-inventory-02" "gk-test-01"
        demoBindingNameMap "t" "alpha" true))
      [PathElem.key "subjects", PathElem.idx 0, PathElem.key "namespace"]
      = some (Val.str "gk-test-01") := by
  refine ⟨fun nm ns sm n hkind hname => ⟨fun hns => ?_, fun s hs hns => ?_⟩, rfl, rfl⟩
  · have e1 : getVal (setVal sm "name" (Val.str (mapName nm "ServiceAccount" ns n)))
        "namespace" = none := by
      rw [getVal_setVal_ne _ _ _ _ (by decide)]
      exact hns
    have e2 : getVal (setVal (setVal sm "name"
        (Val.str (mapName nm "ServiceAccount" ns n)))
        "namespace" (Val.str ns)) "name"
        = some (Val.str (mapName nm "ServiceAccount" ns n)) := by
      rw [getVal_setVal_ne _ _ _ _ (by decide), getVal_setVal_self]
    have e3 : getVal (setVal (setVal sm "name"
        (Val.str (mapName nm "ServiceAccount" ns n)))
        "namespace" (Val.str ns)) "namespace" = some (Val.str ns) :=
      getVal_setVal_self _ _ _
    simp [rewriteRoleBindingSubject, hkind, hname, hns, e1, e2, e3]
  · have e1 : getVal (setVal sm "name" (Val.str (mapName nm "ServiceAccount" s n)))
        "namespace" = some (Val.str s) := by
      rw [getVal_setVal_ne _ _ _ _ (by decide)]
      exact hns
    simp [rewriteRoleBindingSubject, hkind, hname, hns, e1, hs, getVal_setVal_self]

/-- Witness for C6 at a concrete input. -/
theorem roleBindingSubject_rewrite_witness :
    getVal (rewriteRoleBindingSubject demoBindingNameMap "gk-test-01"
      [("kind", Val.str "ServiceAccount"), ("name", Val.str "sa1")]) "name"
      = some (Val.str (mapName demoBindingNameMap "ServiceAccount" "gk-test-01" "sa1")) ∧
    getVal (rewriteRoleBindingSubject demoBindingNameMap "gk-test-01"
      [("kind", Val.str "ServiceAccount"), ("name", Val.str "sa1")]) "namespace"
      = some (Val.str "gk-test-01") :=
  (roleBindingSubject_rewrite.1 demoBindingNameMap "gk-test-01"
    [("kind", Val.str "ServiceAccount"), ("name", Val.str "sa1")] "sa1" rfl rfl).1 rfl

/-- C7: for every RoleBinding or ClusterRoleBinding with a `roleRef`, the
`roleRef.name` is resolved against the name-map entry for kind `Role` in the
binding's own namespace when `roleRef.kind` is `Role`, and against the entry
for `ClusterRole` at cluster scope (empty namespace) when `roleRef.kind` is the
cluster-scoped `ClusterRole` — the resolution scope follows `roleRef.kind`. -/
theorem roleRef_resolution (doc : Obj) (name ns : String)
    (nm : List (nameKey × String)) (taskID expected : String) (isInv : Bool)
    (ref : Obj) (n : String)
    (hkd : getStr doc ["kind"] = "RoleBinding" ∨ getStr doc ["kind"] = "ClusterRoleBinding")
    (href : getVal doc "roleRef" = some (Val.obj ref))
    (hname : getVal ref "name" = some (Val.str n)) :
    (getVal ref "kind" = some (Val.str "Role") →
      getPath (Val.obj (rewriteManifest doc name ns nm taskID expected isInv))
        [PathElem.key "roleRef", PathElem.key "name"]
        = some (Val.str (mapName nm "Role" ns n))) ∧
    (getVal ref "kind" = some (Val.str "ClusterRole") →
      getPath (Val.obj (rewriteManifest doc name ns nm taskID expected isInv))
        [PathElem.key "roleRef", PathElem.key "name"]
        = some (Val.str (mapName nm "ClusterRole" "" n))) := by
  rw [rewriteManifest_roleBinding doc name ns nm taskID expected isInv hkd]
  have h2 : getVal (modArrKey (applyIdentity doc ⟨name, ns, nm, taskID, expected, isInv⟩)
      "subjects" (modElemObj (rewriteRoleBindingSubject nm ns))) "roleRef"
      = some (Val.obj ref) := by
    rw [getVal_modArrKey_ne _ _ _ _ (by decide),
      getVal_applyIdentity_ne _ _ _ (by decide), href]
  constructor
  · intro hrk
    simp only [rewriteRoleBindingRefs, rewriteRoleRef, rewriteRoleRefInner, modObjKey,
      h2, hname, hrk]
    rw [if_neg (by decide), if_pos rfl]
    simp only [getPath, getVal_setVal_self]
  · intro hrk
    simp only [rewriteRoleBindingRefs, rewriteRoleRef, rewriteRoleRefInner, modObjKey,
      h2, hname, hrk]
    rw [if_neg (by decide), if_neg (by decide)]
    simp only [getPath, getVal_setVal_self]

/-- Witness for C7 at a concrete input: the demo RoleBinding's roleRef of kind
Role resolves in the binding's namespace. -/
theorem roleRef_resolution_witness :
    getPath (Val.obj (rewriteManifest demoBinding "resource-inventory-02" "gk-test-01"
        demoBindingNameMap "t" "alpha" true))
      [PathElem.key "roleRef", PathElem.key "name"]
      = some (Val.str (mapName demoBindingNameMap "Role" "gk-test-01" "role1")) :=
  (roleRef_resolution demoBinding "resource-inventory-02" "gk-test-01"
    demoBindingNameMap "t" "alpha" true
    [("kind", Val.str "Role"), ("name", Val.str "role1")] "role1"
    (Or.inl rfl) rfl rfl).1 rfl

/-! ### Within-bundle uniqueness of assigned identities -/

theorem append_ne_empty (s t : String) (h : s ≠ "") : s ++ t ≠ "" := by
  intro hc
  apply h
  have hd := congrArg String.data hc
  rw [String.data_append] at hd
  have hnil : s.data = [] := (List.append_eq_nil.mp hd).1
  exact String.ext hnil

/-- The allocator key under which an assigned document was reserved. -/
def assignKey (defaultNS : String) (p : Obj × String) : nameKey :=
  ⟨getStr p.1 ["kind"],
   if isClusterScoped (getStr p.1 ["kind"]) then "" else defaultNS,
   p.2⟩

/-- The output identity triple of an assigned document, as recorded in its
`TaskManifest`. -/
def docTriple (defaultNS : String) (p : Obj × String) : String × String × String :=
  (getStr p.1 ["kind"],
   if isClusterScoped (getStr p.1 ["kind"]) then getStr p.1 ["metadata", "namespace"]
   else defaultNS,
   p.2)

theorem invStep_spec (defaultNS : String) (doc : Obj) (st : AllocState) :
    assignKey defaultNS (invStep defaultNS doc st).1 ∉ st.used ∧
    (invStep defaultNS doc st).2.used
      = assignKey defaultNS (invStep defaultNS doc st).1 :: st.used := by
  have hbase : (if getStr doc ["metadata", "name"] = "" then
      "resource-inventory-" ++ pad2 st.invIdx else getStr doc ["metadata", "name"]) ≠ "" := by
    by_cases ho : getStr doc ["metadata", "name"] = ""
    · rw [if_pos ho]
      exact append_ne_empty _ _ (by decide)
    · rw [if_neg ho]
      exact ho
  simp only [invStep, assignKey]
  exact ⟨allocate_key_not_used _ _ _ _ hbase, allocate_state_eq _ _ _ _ hbase⟩

theorem subjStep_spec (defaultNS expected : String) (doc : Obj) (st : AllocState) :
    assignKey defaultNS (subjStep defaultNS expected doc st).1 ∉ st.used ∧
    (subjStep defaultNS expected doc st).2.used
      = assignKey defaultNS (subjStep defaultNS expected doc st).1 :: st.used := by
  have hcn : (if expected = "alpha" then "resource-alpha-" ++ pad2 st.alphaIdx
      else "resource-beta-" ++ pad2 st.betaIdx) ≠ "" := by
    by_cases he : expected = "alpha"
    · rw [if_pos he]
      exact append_ne_empty _ _ (by decide)
    · rw [if_neg he]
      exact append_ne_empty _ _ (by decide)
  have hbase : (if getStr doc ["metadata", "name"] = "" then
      (if expected = "alpha" then "resource-alpha-" ++ pad2 st.alphaIdx
        else "resource-beta-" ++ pad2 st.betaIdx)
      else getStr doc ["metadata", "name"]) ≠ "" := by
    by_cases ho : getStr doc ["metadata", "name"] = ""
    · rw [if_pos ho]
      exact hcn
    · rw [if_neg ho]
      exact ho
  have hst1 : (if expected = "alpha" then
      (⟨st.used, st.nm, st.invIdx, st.alphaIdx + 1, st.betaIdx⟩ : AllocState)
      else ⟨st.used, st.nm, st.invIdx, st.alphaIdx, st.betaIdx + 1⟩).used = st.used := by
    by_cases he : expected = "alpha"
    · rw [if_pos he]
    · rw [if_neg he]
  simp only [subjStep, assignKey, hst1]
  exact ⟨allocate_key_not_used _ _ _ _ hbase, allocate_state_eq _ _ _ _ hbase⟩

theorem assignInvDocs_spec (defaultNS : String) :
    ∀ (docs : List Obj) (st : AllocState),
      (∀ k, k ∈ st.used → k ∈ (assignInvDocs defaultNS docs st).2.used) ∧
      ((assignInvDocs defaultNS docs st).1.map (assignKey defaultNS)).Nodup ∧
      ∀ k ∈ (assignInvDocs defaultNS docs st).1.map (assignKey defaultNS),
        k ∉ st.used ∧ k ∈ (assignInvDocs defaultNS docs st).2.used := by
  intro docs
  induction docs with
  | nil =>
    intro st
    exact ⟨fun k hk => hk, by simp [assignInvDocs], by simp [assignInvDocs]⟩
  | cons doc rest ih =>
    intro st
    obtain ⟨hfresh, hstep⟩ := invStep_spec defaultNS doc st
    obtain ⟨ihsub, ihnodup, ihmem⟩ := ih (invStep defaultNS doc st).2
    have heq : assignInvDocs defaultNS (doc :: rest) st =
        ((invStep defaultNS doc st).1 ::
          (assignInvDocs defaultNS rest (invStep defaultNS doc st).2).1,
         (assignInvDocs defaultNS rest (invStep defaultNS doc st).2).2) := rfl
    rw [heq]
    refine ⟨?_, ?_, ?_⟩
    · intro k hk
      exact ihsub k (by rw [hstep]; exact List.mem_cons_of_mem _ hk)
    · simp only [List.map_cons, List.nodup_cons]
      refine ⟨fun hmem => ?_, ihnodup⟩
      obtain ⟨hnot, _⟩ := ihmem _ hmem
      exact hnot (by rw [hstep]; exact List.mem_cons_self _ _)
    · intro k hk
      simp only [List.map_cons, List.mem_cons] at hk
      rcases hk with hk | hk
      · subst hk
        exact ⟨hfresh, ihsub _ (by rw [hstep]; exact List.mem_cons_self _ _)⟩
      · obtain ⟨hnot, hmem2⟩ := ihmem _ hk
        exact ⟨fun hin => hnot (by rw [hstep]; exact List.mem_cons_of_mem _ hin), hmem2⟩

theorem assignSubjectDocs_spec (defaultNS expected : String) :
    ∀ (docs : List Obj) (st : AllocState),
      (∀ k, k ∈ st.used → k ∈ (assignSubjectDocs defaultNS expected docs st).2.used) ∧
      ((assignSubjectDocs defaultNS expected docs st).1.map (assignKey defaultNS)).Nodup ∧
      ∀ k ∈ (assignSubjectDocs defaultNS expected docs st).1.map (assignKey defaultNS),
        k ∉ st.used ∧ k ∈ (assignSubjectDocs defaultNS expected docs st).2.used := by
  intro docs
  induction docs with
  | nil =>
    intro st
    exact ⟨fun k hk => hk, by simp [assignSubjectDocs], by simp [assignSubjectDocs]⟩
  | cons doc rest ih =>
    intro st
    obtain ⟨hfresh, hstep⟩ := subjStep_spec defaultNS expected doc st
    obtain ⟨ihsub, ihnodup, ihmem⟩ := ih (subjStep defaultNS expected doc st).2
    have heq : assignSubjectDocs defaultNS expected (doc :: rest) st =
        ((subjStep defaultNS expected doc st).1 ::
          (assignSubjectDocs defaultNS expected rest (subjStep defaultNS expected doc st).2).1,
         (assignSubjectDocs defaultNS expected rest (subjStep defaultNS expected doc st).2).2) :=
      rfl
    rw [heq]
    refine ⟨?_, ?_, ?_⟩
    · intro k hk
      exact ihsub k (by rw [hstep]; exact List.mem_cons_of_mem _ hk)
    · simp only [List.map_cons, List.nodup_cons]
      refine ⟨fun hmem => ?_, ihnodup⟩
      obtain ⟨hnot, _⟩ := ihmem _ hmem
      exact hnot (by rw [hstep]; exact List.mem_cons_self _ _)
    · intro k hk
      simp only [List.map_cons, List.mem_cons] at hk
      rcases hk with hk | hk
      · subst hk
        exact ⟨hfresh, ihsub _ (by rw [hstep]; exact List.mem_cons_self _ _)⟩
      · obtain ⟨hnot, hmem2⟩ := ihmem _ hk
        exact ⟨fun hin => hnot (by rw [hstep]; exact List.mem_cons_of_mem _ hin), hmem2⟩

theorem getStr_rewriteManifest_kind (doc : Obj) (name ns : String)
    (nm : List (nameKey × String)) (taskID expected : String) (isInv : Bool) :
    getStr (rewriteManifest doc name ns nm taskID expected isInv) ["kind"]
      = getStr doc ["kind"] := by
  simp only [getStr]
  rw [getVal_rewriteManifest_kind]

theorem getStr_applyIdentity_namespace_cluster (doc : Obj) (ctx : manifestRewriteContext)
    (h : isClusterScoped (getStr doc ["kind"]) = true) :
    getStr (applyIdentity doc ctx) ["metadata", "namespace"]
      = getStr doc ["metadata", "namespace"] := by
  have h1 : getStr (applyIdentity doc ctx) ["metadata", "namespace"]
      = getStr (identityMeta doc ctx) ["namespace"] := by
    simp only [getStr, getVal_applyIdentity_metadata]
  rw [h1]
  simp only [identityMeta]
  rw [if_pos h]
  simp only [getStr]
  rw [getVal_setVal_ne _ _ _ _ (by decide), getVal_setVal_ne _ _ _ _ (by decide)]
  cases hv : getVal doc "metadata" with
  | none => simp [getVal, getStr]
  | some v => cases v <;> simp [getVal, getStr]

theorem getStr_rewriteManifest_metans (doc : Obj) (name ns : String)
    (nm : List (nameKey × String)) (taskID expected : String) (isInv : Bool) :
    getStr (rewriteManifest doc name ns nm taskID expected isInv) ["metadata", "namespace"]
      = getStr (applyIdentity doc ⟨name, ns, nm, taskID, expected, isInv⟩)
          ["metadata", "namespace"] := by
  simp only [getStr, getVal_rewriteManifest_metadata]

theorem getStr_rewriteManifest_namespace (doc : Obj) (name ns : String)
    (nm : List (nameKey × String)) (taskID expected : String) (isInv : Bool) :
    getStr (rewriteManifest doc name ns nm taskID expected isInv) ["metadata", "namespace"]
      = if isClusterScoped (getStr doc ["kind"]) then getStr doc ["metadata", "namespace"]
        else ns := by
  rw [getStr_rewriteManifest_metans]
  cases hb : isClusterScoped (getStr doc ["kind"])
  · rw [if_neg (by decide), getStr_applyIdentity_namespace _ _ hb]
  · rw [if_pos rfl, getStr_applyIdentity_namespace_cluster _ _ hb]

theorem manifestTriple_buildOne (taskID defaultNS expected : String)
    (nm : List (nameKey × String)) (isInv : Bool) (p : Obj × String) :
    manifestTriple (buildOne taskID defaultNS expected nm isInv p)
      = docTriple defaultNS p := by
  simp only [manifestTriple, buildOne, docTriple]
  rw [getStr_rewriteManifest_kind, getStr_rewriteManifest_namespace]

theorem buildManifests_triples (taskID defaultNS expected : String)
    (nm : List (nameKey × String)) (ps : List (Obj × String)) (isInv : Bool) :
    (buildManifests taskID defaultNS expected nm ps isInv).map manifestTriple
      = ps.map (docTriple defaultNS) := by
  simp only [buildManifests, List.map_map]
  have hfun : manifestTriple ∘ buildOne taskID defaultNS expected nm isInv
      = docTriple defaultNS := by
    funext p
    exact manifestTriple_buildOne taskID defaultNS expected nm isInv p
  rw [hfun]

theorem nodup_map_of_nodup_map {α β γ : Type} (f : α → β) (g : α → γ) :
    ∀ (l : List α), (∀ a b : α, f a = f b → g a = g b) →
      (l.map g).Nodup → (l.map f).Nodup := by
  intro l hfg
  induction l with
  | nil => intro _; simp
  | cons a l ih =>
    intro hnd
    simp only [List.map_cons, List.nodup_cons] at hnd ⊢
    refine ⟨fun hmem => ?_, ih hnd.2⟩
    obtain ⟨b, hb, hfb⟩ := List.mem_map.mp hmem
    exact hnd.1 (List.mem_map.mpr ⟨b, hb, hfg b a hfb⟩)

theorem assignKey_of_docTriple (defaultNS : String) (p q : Obj × String)
    (h : docTriple defaultNS p = docTriple defaultNS q) :
    assignKey defaultNS p = assignKey defaultNS q := by
  simp only [docTriple, Prod.mk.injEq] at h
  simp only [assignKey, h.1, h.2.2]

theorem assign_then_build_nodup (taskID defaultNS expected : String)
    (nmF : List (nameKey × String)) (invDocs subjDocs : List Obj) (stA : AllocState) :
    ((buildManifests taskID defaultNS expected nmF
        (assignInvDocs defaultNS invDocs stA).1 true ++
      buildManifests taskID defaultNS expected nmF
        (assignSubjectDocs defaultNS expected subjDocs
          (assignInvDocs defaultNS invDocs stA).2).1 false).map manifestTriple).Nodup := by
  rw [List.map_append, buildManifests_triples, buildManifests_triples, ← List.map_append]
  apply nodup_map_of_nodup_map _ (assignKey defaultNS) _
    (fun a b => assignKey_of_docTriple defaultNS a b)
  rw [List.map_append]
  obtain ⟨hsubI, hnodI, hmemI⟩ := assignInvDocs_spec defaultNS invDocs stA
  obtain ⟨hsubS, hnodS, hmemS⟩ := assignSubjectDocs_spec defaultNS expected subjDocs
    (assignInvDocs defaultNS invDocs stA).2
  rw [List.nodup_append]
  refine ⟨hnodI, hnodS, ?_⟩
  intro k hkI hkS
  obtain ⟨_, hmem2⟩ := hmemI _ hkI
  obtain ⟨hnot, _⟩ := hmemS _ hkS
  exact hnot hmem2

/-- C1 amended: the Name Allocator (and the Name Map) are created afresh for
every case bundle, so no two documents produced from one bundle share an
identical `(kind, namespace, name)` triple — for any allocator start state —
while across bundles of the same run the triple can repeat (see the
counterexample). -/
theorem processCase_unique_triples (taskID defaultNS : String) (c : CaseSpec)
    (st0 : AllocState) :
    ((processCase taskID defaultNS c st0).1.map manifestTriple).Nodup := by
  cases hc : c.caseDocs with
  | nil => simp [processCase, hc]
  | cons d0 ds =>
    simp only [processCase, hc]
    by_cases hskip : (isAdmissionReview d0 || !(isDeployable d0)) = true
    · rw [if_pos hskip]
      simp
    · rw [if_neg hskip]
      exact assign_then_build_nodup taskID defaultNS c.expected _
        (collectInvDocs c.invSources) ((d0 :: ds).take 1)
        ⟨[], [], st0.invIdx, st0.alphaIdx, st0.betaIdx⟩

/-! ### Frame machinery: the mutable-location patterns of `rewriteManifest` -/

/-- Pattern element of a mutable location: a fixed object key, or any array
index. -/
inductive PatElem where
  | pkey : String → PatElem
  | pany : PatElem
deriving DecidableEq

/-- A mutable-location pattern. -/
abbrev Pat := List PatElem

/-- `touchesB q p` is true when a write at pattern `q` can affect the value
read at path `p`: one of the two is a (wildcard) prefix of the other. -/
def touchesB : Pat → List PathElem → Bool
  | [], _ => true
  | _, [] => true
  | PatElem.pkey s :: q, PathElem.key s2 :: p => s = s2 && touchesB q p
  | PatElem.pany :: q, PathElem.idx _ :: p => touchesB q p
  | PatElem.pkey _ :: _, PathElem.idx _ :: _ => false
  | PatElem.pany :: _, PathElem.key _ :: _ => false

theorem touchesB_nil (q : Pat) : touchesB q [] = true := by
  cases q with
  | nil => rfl
  | cons h t => cases h <;> rfl

/-- `f` writes only inside the locations of `pats`: a path touching none of
them reads the same value before and after. -/
def FrameOn (pats : List Pat) (f : Obj → Obj) : Prop :=
  ∀ (m : Obj) (p : List PathElem),
    (pats.all fun q => !(touchesB q p)) = true →
    getPath (Val.obj (f m)) p = getPath (Val.obj m) p

/-- Frame property for array-element transformers. -/
def FrameOnV (pats : List Pat) (f : Val → Val) : Prop :=
  ∀ (v : Val) (p : List PathElem),
    (pats.all fun q => !(touchesB q p)) = true →
    getPath (f v) p = getPath v p

theorem frameOn_mono {pats pats2 : List Pat} {f : Obj → Obj}
    (hsub : ∀ q ∈ pats, q ∈ pats2) (h : FrameOn pats f) : FrameOn pats2 f := by
  intro m p hall
  apply h
  rw [List.all_eq_true] at hall ⊢
  exact fun q hq => hall q (hsub q hq)

theorem frameOn_comp {pats : List Pat} {f g : Obj → Obj}
    (hf : FrameOn pats f) (hg : FrameOn pats g) :
    FrameOn pats (fun m => g (f m)) := by
  intro m p hall
  rw [hg (f m) p hall, hf m p hall]

theorem frameOn_of_id {pats : List Pat} {f : Obj → Obj} (h : ∀ m, f m = m) :
    FrameOn pats f := by
  intro m p _
  rw [h]

theorem frameOn_single_key (k : String) (f : Obj → Obj)
    (h : ∀ (m : Obj) (k2 : String), k2 ≠ k → getVal (f m) k2 = getVal m k2) :
    FrameOn [[PatElem.pkey k]] f := by
  intro m p hall
  rcases p with _ | ⟨pe, p2⟩
  · simp [touchesB] at hall
  · rcases pe with ⟨s⟩ | ⟨n⟩
    · have hk : s ≠ k := by
        simp [touchesB, touchesB_nil] at hall
        exact fun h2 => hall h2.symm
      simp only [getPath]
      rw [h m s hk]
    · rfl

theorem frameOn_two_keys (k1 k2 : String) (f : Obj → Obj)
    (h : ∀ (m : Obj) (k3 : String), k3 ≠ k1 → k3 ≠ k2 →
      getVal (f m) k3 = getVal m k3) :
    FrameOn [[PatElem.pkey k1], [PatElem.pkey k2]] f := by
  intro m p hall
  rcases p with _ | ⟨pe, p2⟩
  · simp [touchesB] at hall
  · rcases pe with ⟨s⟩ | ⟨n⟩
    · simp only [List.all_cons, List.all_nil, Bool.and_eq_true, Bool.and_true] at hall
      have hk1 : s ≠ k1 := by
        have := hall.1
        simp [touchesB, touchesB_nil] at this
        exact fun h2 => this h2.symm
      have hk2 : s ≠ k2 := by
        have := hall.2
        simp [touchesB, touchesB_nil] at this
        exact fun h2 => this h2.symm
      simp only [getPath]
      rw [h m s hk1 hk2]
    · rfl

theorem frameOn_modObjKey (k : String) (pats : List Pat) (f : Obj → Obj)
    (hne : pats ≠ []) (hf : FrameOn pats f) :
    FrameOn (pats.map (fun q => PatElem.pkey k :: q)) (fun m => modObjKey m k f) := by
  intro m p hall
  rcases p with _ | ⟨pe, p2⟩
  · exfalso
    rcases pats with _ | ⟨q, qs⟩
    · exact hne rfl
    · simp [touchesB_nil] at hall
  · rcases pe with ⟨s⟩ | ⟨n⟩
    · by_cases hk : s = k
      · subst hk
        have hall2 : (pats.all fun q => !(touchesB q p2)) = true := by
          rw [List.all_eq_true] at hall ⊢
          intro q hq
          have := hall _ (List.mem_map.mpr ⟨q, hq, rfl⟩)
          simpa [touchesB] using this
        simp only [modObjKey]
        cases hv : getVal m s with
        | none => rfl
        | some v =>
          cases v with
          | obj o =>
            simp only [getPath, getVal_setVal_self, hv]
            exact hf o p2 hall2
          | str s2 => rfl
          | num n2 => rfl
          | bool b2 => rfl
          | null => rfl
          | arr l2 => rfl
      · simp only [getPath]
        rw [getVal_modObjKey_ne _ _ _ _ hk]
    · rfl

theorem frameOn_modArrKey (k : String) (pats : List Pat) (g : Val → Val)
    (hne : pats ≠ []) (hg : FrameOnV pats g) :
    FrameOn (pats.map (fun q => PatElem.pkey k :: PatElem.pany :: q))
      (fun m => modArrKey m k g) := by
  intro m p hall
  rcases p with _ | ⟨pe, p2⟩
  · exfalso
    rcases pats with _ | ⟨q, qs⟩
    · exact hne rfl
    · simp [touchesB_nil] at hall
  · rcases pe with ⟨s⟩ | ⟨n⟩
    · by_cases hk : s = k
      · subst hk
        simp only [modArrKey]
        cases hv : getVal m s with
        | none => rfl
        | some v =>
          cases v with
          | arr l =>
            simp only [getPath, getVal_setVal_self, hv]
            rcases p2 with _ | ⟨pe2, p3⟩
            · exfalso
              rcases pats with _ | ⟨q, qs⟩
              · exact hne rfl
              · simp [touchesB, touchesB_nil] at hall
            · rcases pe2 with ⟨s2⟩ | ⟨n2⟩
              · rfl
              · have hall3 : (pats.all fun q => !(touchesB q p3)) = true := by
                  rw [List.all_eq_true] at hall ⊢
                  intro q hq
                  have := hall _ (List.mem_map.mpr ⟨q, hq, rfl⟩)
                  simpa [touchesB] using this
                simp only [getPath, List.get?_eq_getElem?, List.getElem?_map]
                cases he : l[n2]? with
                | none => rfl
                | some v2 =>
                  simp only [Option.map_some']
                  exact hg v2 p3 hall3
          | obj o => rfl
          | str s2 => rfl
          | num n2 => rfl
          | bool b2 => rfl
          | null => rfl
      · simp only [getPath]
        rw [getVal_modArrKey_ne _ _ _ _ hk]
    · rfl

theorem frameOnV_modElemObj (pats : List Pat) (f : Obj → Obj)
    (hf : FrameOn pats f) : FrameOnV pats (modElemObj f) := by
  intro v p hall
  cases v with
  | obj o => exact hf o p hall
  | str s => rfl
  | num n => rfl
  | bool b => rfl
  | null => rfl
  | arr l => rfl

/-! ### Frame of the identity rewriter -/

/-- The mutable locations of `applyIdentity`. -/
def identityPats : List Pat :=
  [[PatElem.pkey "metadata", PatElem.pkey "name"],
   [PatElem.pkey "metadata", PatElem.pkey "namespace"],
   [PatElem.pkey "metadata", PatElem.pkey "labels", PatElem.pkey "k8s-ai-bench/task"],
   [PatElem.pkey "metadata", PatElem.pkey "labels", PatElem.pkey "k8s-ai-bench/expected"],
   [PatElem.pkey "metadata", PatElem.pkey "labels", PatElem.pkey "k8s-ai-bench/inventory"]]

/-- Base metadata object of a document (empty when absent or not an object). -/
def metaBase (doc : Obj) : Obj :=
  match getVal doc "metadata" with
  | some (Val.obj m) => m
  | _ => []

/-- Base labels object below the metadata (empty when absent or not an
object). -/
def labelsBase (doc : Obj) : Obj :=
  match getVal (metaBase doc) "labels" with
  | some (Val.obj m) => m
  | _ => []

theorem touchesB_cons_key_same (s : String) (q : Pat) (p : List PathElem) :
    touchesB (PatElem.pkey s :: q) (PathElem.key s :: p) = touchesB q p := by
  simp [touchesB]

theorem ne_of_touchesB_single_false {s y : String} {p3 : List PathElem}
    (h : touchesB [PatElem.pkey s] (PathElem.key y :: p3) = false) : y ≠ s := by
  intro he
  subst he
  rw [touchesB_cons_key_same] at h
  simp [touchesB] at h

theorem getPath_obj_nil (p : List PathElem) (h : p ≠ []) :
    getPath (Val.obj []) p = none := by
  rcases p with _ | ⟨pe, p2⟩
  · exact absurd rfl h
  · rcases pe with ⟨s⟩ | ⟨n⟩ <;> rfl

theorem getVal_identityLabels_ne (l : Obj) (ctx : manifestRewriteContext) (z : String)
    (h1 : z ≠ "k8s-ai-bench/task") (h2 : z ≠ "k8s-ai-bench/expected")
    (h3 : z ≠ "k8s-ai-bench/inventory") :
    getVal (identityLabels l ctx) z = getVal l z := by
  simp only [identityLabels]
  rw [getVal_setVal_ne _ _ _ _ h3, getVal_setVal_ne _ _ _ _ h2,
    getVal_setVal_ne _ _ _ _ h1]

theorem getPath_identityLabels (l : Obj) (ctx : manifestRewriteContext)
    (p3 : List PathElem)
    (h3 : touchesB [PatElem.pkey "k8s-ai-bench/task"] p3 = false)
    (h4 : touchesB [PatElem.pkey "k8s-ai-bench/expected"] p3 = false)
    (h5 : touchesB [PatElem.pkey "k8s-ai-bench/inventory"] p3 = false) :
    getPath (Val.obj (identityLabels l ctx)) p3 = getPath (Val.obj l) p3 := by
  rcases p3 with _ | ⟨pe3, p4⟩
  · rw [touchesB_nil] at h3
    exact absurd h3 (by decide)
  · rcases pe3 with ⟨z⟩ | ⟨n⟩
    · simp only [getPath]
      rw [getVal_identityLabels_ne l ctx z (ne_of_touchesB_single_false h3)
        (ne_of_touchesB_single_false h4) (ne_of_touchesB_single_false h5)]
    · rfl

theorem getVal_identityMeta_other (doc : Obj) (ctx : manifestRewriteContext) (y : String)
    (h1 : y ≠ "name") (h2 : y ≠ "namespace") (h3 : y ≠ "labels") :
    getVal (identityMeta doc ctx) y = getVal (metaBase doc) y := by
  simp only [identityMeta, metaBase]
  rw [getVal_setVal_ne _ _ _ _ h3]
  by_cases hcs : isClusterScoped (getStr doc ["kind"]) = true
  · rw [if_pos hcs, getVal_setVal_ne _ _ _ _ h1]
  · rw [if_neg hcs, getVal_setVal_ne _ _ _ _ h2, getVal_setVal_ne _ _ _ _ h1]

theorem getVal_identityMeta_labels (doc : Obj) (ctx : manifestRewriteContext) :
    getVal (identityMeta doc ctx) "labels"
      = some (Val.obj (identityLabels (labelsBase doc) ctx)) := by
  simp only [identityMeta, labelsBase, metaBase]
  rw [getVal_setVal_self]
  have hsame : getVal (if isClusterScoped (getStr doc ["kind"]) then
      setVal (match getVal doc "metadata" with
        | some (Val.obj m) => m
        | _ => []) "name" (Val.str ctx.name)
    else setVal (setVal (match getVal doc "metadata" with
        | some (Val.obj m) => m
        | _ => []) "name" (Val.str ctx.name)) "namespace" (Val.str ctx.ns)) "labels"
      = getVal (match getVal doc "metadata" with
        | some (Val.obj m) => m
        | _ => []) "labels" := by
    by_cases hcs : isClusterScoped (getStr doc ["kind"]) = true
    · rw [if_pos hcs, getVal_setVal_ne _ _ _ _ (by decide)]
    · rw [if_neg hcs, getVal_setVal_ne _ _ _ _ (by decide),
        getVal_setVal_ne _ _ _ _ (by decide)]
  rw [hsame]

theorem getPath_identityMeta (doc : Obj) (ctx : manifestRewriteContext)
    (p2 : List PathElem)
    (h1 : touchesB [PatElem.pkey "name"] p2 = false)
    (h2 : touchesB [PatElem.pkey "namespace"] p2 = false)
    (h3 : touchesB [PatElem.pkey "labels", PatElem.pkey "k8s-ai-bench/task"] p2 = false)
    (h4 : touchesB [PatElem.pkey "labels", PatElem.pkey "k8s-ai-bench/expected"] p2 = false)
    (h5 : touchesB [PatElem.pkey "labels", PatElem.pkey "k8s-ai-bench/inventory"] p2 = false)
    (hlab : ∀ l, getVal (metaBase doc) "labels" ≠ some (Val.arr l)) :
    getPath (Val.obj (identityMeta doc ctx)) p2 = getPath (Val.obj (metaBase doc)) p2 := by
  rcases p2 with _ | ⟨pe2, p3⟩
  · rw [touchesB_nil] at h1
    exact absurd h1 (by decide)
  · rcases pe2 with ⟨y⟩ | ⟨n⟩
    · by_cases hy3 : y = "labels"
      · subst hy3
        rw [touchesB_cons_key_same] at h3 h4 h5
        simp only [getPath, getVal_identityMeta_labels]
        cases hlv : getVal (metaBase doc) "labels" with
        | none =>
          have : labelsBase doc = [] := by
            simp [labelsBase, hlv]
          rw [this, getPath_identityLabels [] ctx p3 h3 h4 h5, getPath_obj_nil]
          intro hp3
          subst hp3
          rw [touchesB_nil] at h3
          exact absurd h3 (by decide)
        | some v =>
          cases v with
          | obj l0 =>
            have : labelsBase doc = l0 := by
              simp [labelsBase, hlv]
            rw [this, getPath_identityLabels l0 ctx p3 h3 h4 h5]
          | arr l => exact absurd hlv (hlab l)
          | str s =>
            have : labelsBase doc = [] := by
              simp [labelsBase, hlv]
            rw [this, getPath_identityLabels [] ctx p3 h3 h4 h5, getPath_obj_nil]
            · rcases p3 with _ | ⟨pe3, p4⟩
              · rw [touchesB_nil] at h3
                exact absurd h3 (by decide)
              · rcases pe3 with ⟨z⟩ | ⟨n2⟩ <;> rfl
            · intro hp3
              subst hp3
              rw [touchesB_nil] at h3
              exact absurd h3 (by decide)
          | num n2 =>
            have : labelsBase doc = [] := by
              simp [labelsBase, hlv]
            rw [this, getPath_identityLabels [] ctx p3 h3 h4 h5, getPath_obj_nil]
            · rcases p3 with _ | ⟨pe3, p4⟩
              · rw [touchesB_nil] at h3
                exact absurd h3 (by decide)
              · rcases pe3 with ⟨z⟩ | ⟨n3⟩ <;> rfl
            · intro hp3
              subst hp3
              rw [touchesB_nil] at h3
              exact absurd h3 (by decide)
          | bool b =>
            have : labelsBase doc = [] := by
              simp [labelsBase, hlv]
            rw [this, getPath_identityLabels [] ctx p3 h3 h4 h5, getPath_obj_nil]
            · rcases p3 with _ | ⟨pe3, p4⟩
              · rw [touchesB_nil] at h3
                exact absurd h3 (by decide)
              · rcases pe3 with ⟨z⟩ | ⟨n3⟩ <;> rfl
            · intro hp3
              subst hp3
              rw [touchesB_nil] at h3
              exact absurd h3 (by decide)
          | null =>
            have : labelsBase doc = [] := by
              simp [labelsBase, hlv]
            rw [this, getPath_identityLabels [] ctx p3 h3 h4 h5, getPath_obj_nil]
            · rcases p3 with _ | ⟨pe3, p4⟩
              · rw [touchesB_nil] at h3
                exact absurd h3 (by decide)
              · rcases pe3 with ⟨z⟩ | ⟨n3⟩ <;> rfl
            · intro hp3
              subst hp3
              rw [touchesB_nil] at h3
              exact absurd h3 (by decide)
      · simp only [getPath]
        rw [getVal_identityMeta_other doc ctx y (ne_of_touchesB_single_false h1)
          (ne_of_touchesB_single_false h2) hy3]
    · rfl

theorem applyIdentity_frame (ctx : manifestRewriteContext) (doc : Obj)
    (p : List PathElem)
    (hmeta : ∀ l, getVal doc "metadata" ≠ some (Val.arr l))
    (hlab : ∀ l, getVal (metaBase doc) "labels" ≠ some (Val.arr l))
    (hall : (identityPats.all fun q => !(touchesB q p)) = true) :
    getPath (Val.obj (applyIdentity doc ctx)) p = getPath (Val.obj doc) p := by
  rcases p with _ | ⟨pe, p2⟩
  · simp [identityPats, touchesB] at hall
  · rcases pe with ⟨k2⟩ | ⟨n⟩
    · by_cases hk : k2 = "metadata"
      · subst hk
        have hall2 : touchesB [PatElem.pkey "name"] p2 = false ∧
            touchesB [PatElem.pkey "namespace"] p2 = false ∧
            touchesB [PatElem.pkey "labels", PatElem.pkey "k8s-ai-bench/task"] p2 = false ∧
            touchesB [PatElem.pkey "labels", PatElem.pkey "k8s-ai-bench/expected"] p2
              = false ∧
            touchesB [PatElem.pkey "labels", PatElem.pkey "k8s-ai-bench/inventory"] p2
              = false := by
          simpa [identityPats, touchesB_cons_key_same, Bool.not_eq_true'] using hall
        obtain ⟨h1, h2, h3, h4, h5⟩ := hall2
        have hp2 : p2 ≠ [] := by
          intro hp
          subst hp
          rw [touchesB_nil] at h1
          exact absurd h1 (by decide)
        have hmain := getPath_identityMeta doc ctx p2 h1 h2 h3 h4 h5 hlab
        simp only [applyIdentity, getPath, getVal_setVal_self]
        rw [hmain]
        cases hv : getVal doc "metadata" with
        | none =>
          have : metaBase doc = [] := by
            simp [metaBase, hv]
          rw [this, getPath_obj_nil p2 hp2]
        | some v =>
          cases v with
          | obj m0 =>
            have : metaBase doc = m0 := by
              simp [metaBase, hv]
            rw [this]
          | arr l => exact absurd hv (hmeta l)
          | str s =>
            have : metaBase doc = [] := by
              simp [metaBase, hv]
            rw [this, getPath_obj_nil p2 hp2]
            rcases p2 with _ | ⟨pe2, p3⟩
            · exact absurd rfl hp2
            · rcases pe2 with ⟨z⟩ | ⟨n2⟩ <;> rfl
          | num n2 =>
            have : metaBase doc = [] := by
              simp [metaBase, hv]
            rw [this, getPath_obj_nil p2 hp2]
            rcases p2 with _ | ⟨pe2, p3⟩
            · exact absurd rfl hp2
            · rcases pe2 with ⟨z⟩ | ⟨n3⟩ <;> rfl
          | bool b =>
            have : metaBase doc = [] := by
              simp [metaBase, hv]
            rw [this, getPath_obj_nil p2 hp2]
            rcases p2 with _ | ⟨pe2, p3⟩
            · exact absurd rfl hp2
            · rcases pe2 with ⟨z⟩ | ⟨n3⟩ <;> rfl
          | null =>
            have : metaBase doc = [] := by
              simp [metaBase, hv]
            rw [this, getPath_obj_nil p2 hp2]
            rcases p2 with _ | ⟨pe2, p3⟩
            · exact absurd rfl hp2
            · rcases pe2 with ⟨z⟩ | ⟨n3⟩ <;> rfl
      · simp only [applyIdentity, getPath]
        rw [getVal_setVal_ne _ _ _ _ hk]
    · rfl

/-! ### Frames of the reference rewriter and deployability fixes -/

theorem frameOn_modStrKey (k : String) (f : String → String) :
    FrameOn [[PatElem.pkey k]] (fun m => modStrKey m k f) :=
  frameOn_single_key k _ (fun m k2 hk => getVal_modStrKey_ne m k k2 f hk)

theorem frameOn_rewriteScaleTargetRef (nm : List (nameKey × String)) (ns : String) :
    FrameOn [[PatElem.pkey "name"]] (rewriteScaleTargetRef nm ns) := by
  apply frameOn_single_key
  intro m k2 hk
  simp only [rewriteScaleTargetRef]
  cases hv : getVal m "name" with
  | none => rfl
  | some v =>
    cases v with
    | str n =>
      dsimp only
      split
      · rw [getVal_setVal_ne _ _ _ _ hk]
      · rfl
    | num n2 => rfl
    | bool b => rfl
    | null => rfl
    | obj o => rfl
    | arr l => rfl

theorem frameOn_rewriteRoleRefInner (nm : List (nameKey × String)) (ns : String) :
    FrameOn [[PatElem.pkey "name"]] (rewriteRoleRefInner nm ns) := by
  apply frameOn_single_key
  intro m k2 hk
  simp only [rewriteRoleRefInner]
  cases hv : getVal m "name" with
  | none => rfl
  | some v =>
    cases v with
    | str n =>
      dsimp only
      rw [getVal_setVal_ne _ _ _ _ hk]
    | num n2 => rfl
    | bool b => rfl
    | null => rfl
    | obj o => rfl
    | arr l => rfl

theorem getVal_rewriteRoleBindingSubject_ne (nm : List (nameKey × String)) (ns : String)
    (sm : Obj) (k3 : String) (h1 : k3 ≠ "name") (h2 : k3 ≠ "namespace") :
    getVal (rewriteRoleBindingSubject nm ns sm) k3 = getVal sm k3 := by
  simp only [rewriteRoleBindingSubject]
  split
  · cases hv : getVal sm "name" with
    | none =>
      dsimp only
      split
      · rw [getVal_setVal_ne _ _ _ _ h2]
      · rfl
    | some v =>
      cases v with
      | str n =>
        dsimp only
        split <;> split
        · rw [getVal_setVal_ne _ _ _ _ h2, getVal_setVal_ne _ _ _ _ h1]
        · rw [getVal_setVal_ne _ _ _ _ h1]
        · rw [getVal_setVal_ne _ _ _ _ h2, getVal_setVal_ne _ _ _ _ h1]
        · rw [getVal_setVal_ne _ _ _ _ h1]
      | num n2 =>
        dsimp only
        split
        · rw [getVal_setVal_ne _ _ _ _ h2]
        · rfl
      | bool b =>
        dsimp only
        split
        · rw [getVal_setVal_ne _ _ _ _ h2]
        · rfl
      | null =>
        dsimp only
        split
        · rw [getVal_setVal_ne _ _ _ _ h2]
        · rfl
      | obj o =>
        dsimp only
        split
        · rw [getVal_setVal_ne _ _ _ _ h2]
        · rfl
      | arr l =>
        dsimp only
        split
        · rw [getVal_setVal_ne _ _ _ _ h2]
        · rfl
  · rfl

theorem frameOn_rewriteRoleBindingSubject (nm : List (nameKey × String)) (ns : String) :
    FrameOn [[PatElem.pkey "name"], [PatElem.pkey "namespace"]]
      (rewriteRoleBindingSubject nm ns) :=
  frameOn_two_keys _ _ _
    (fun m k3 h1 h2 => getVal_rewriteRoleBindingSubject_ne nm ns m k3 h1 h2)

theorem frameOn_rewritePodSpecRefs (nm : List (nameKey × String)) (ns : String) :
    FrameOn [[PatElem.pkey "serviceAccountName"],
             [PatElem.pkey "volumes", PatElem.pany,
              PatElem.pkey "persistentVolumeClaim", PatElem.pkey "claimName"]]
      (fun spec => rewritePodSpecRefs spec nm ns) := by
  have hsa : FrameOn [[PatElem.pkey "serviceAccountName"],
      [PatElem.pkey "volumes", PatElem.pany,
       PatElem.pkey "persistentVolumeClaim", PatElem.pkey "claimName"]]
      (fun spec => modStrKey spec "serviceAccountName"
        (fun sa => mapName nm "ServiceAccount" ns sa)) :=
    frameOn_mono (by decide) (frameOn_modStrKey "serviceAccountName" _)
  have hvolEntry : FrameOn [[PatElem.pkey "persistentVolumeClaim",
      PatElem.pkey "claimName"]] (rewriteVolumeEntry nm ns) :=
    frameOn_modObjKey "persistentVolumeClaim" _ _ (by decide)
      (frameOn_modStrKey "claimName" _)
  have hvols : FrameOn [[PatElem.pkey "serviceAccountName"],
      [PatElem.pkey "volumes", PatElem.pany,
       PatElem.pkey "persistentVolumeClaim", PatElem.pkey "claimName"]]
      (fun spec => modArrKey spec "volumes" (modElemObj (rewriteVolumeEntry nm ns))) :=
    frameOn_mono (by decide)
      (frameOn_modArrKey "volumes" _ _ (by decide)
        (frameOnV_modElemObj _ _ hvolEntry))
  exact frameOn_comp hsa hvols

theorem frameOn_rewritePodTemplateRefs (nm : List (nameKey × String)) (ns : String) :
    FrameOn [[PatElem.pkey "template", PatElem.pkey "spec",
              PatElem.pkey "serviceAccountName"],
             [PatElem.pkey "template", PatElem.pkey "spec", PatElem.pkey "volumes",
              PatElem.pany, PatElem.pkey "persistentVolumeClaim",
              PatElem.pkey "claimName"]]
      (fun spec => rewritePodTemplateRefs spec nm ns) :=
  frameOn_modObjKey "template" _ _ (by decide)
    (frameOn_modObjKey "spec" _ _ (by decide) (frameOn_rewritePodSpecRefs nm ns))

theorem frameOn_rewriteVolumeClaimTemplates (nm : List (nameKey × String)) :
    FrameOn [[PatElem.pkey "volumeClaimTemplates", PatElem.pany, PatElem.pkey "spec",
              PatElem.pkey "storageClassName"]]
      (fun spec => rewriteVolumeClaimTemplates spec nm) :=
  frameOn_modArrKey "volumeClaimTemplates" _ _ (by decide)
    (frameOnV_modElemObj _ _
      (frameOn_modObjKey "spec" _ _ (by decide) (frameOn_modStrKey "storageClassName" _)))

/-- `fixReplicaCount` leaves non-beta specs untouched. -/
theorem fixReplicaCount_other (spec : Obj) (expected : String) (h : expected ≠ "beta") :
    fixReplicaCount spec expected = spec := by
  simp [fixReplicaCount, h]

theorem getVal_fixReplicaCount_ne (spec : Obj) (expected : String) (k3 : String)
    (h : k3 ≠ "replicas") :
    getVal (fixReplicaCount spec expected) k3 = getVal spec k3 := by
  simp only [fixReplicaCount]
  split
  · rfl
  · cases hv : getVal spec "replicas" with
    | none => rfl
    | some v =>
      cases v with
      | num r =>
        dsimp only
        split
        · rw [getVal_setVal_ne _ _ _ _ h]
        · rfl
      | str s => rfl
      | bool b => rfl
      | null => rfl
      | obj o => rfl
      | arr l => rfl

theorem frameOn_fixReplicaCount (expected : String) :
    FrameOn [[PatElem.pkey "replicas"]] (fun spec => fixReplicaCount spec expected) :=
  frameOn_single_key _ _ (fun m k2 hk => getVal_fixReplicaCount_ne m expected k2 hk)

theorem getVal_fixInitContainer_ne (c : Obj) (k3 : String)
    (h1 : k3 ≠ "command") (h2 : k3 ≠ "args") :
    getVal (fixInitContainer c) k3 = getVal c k3 := by
  simp only [fixInitContainer]
  split
  · rw [getVal_delVal_ne _ _ _ h2, getVal_setVal_ne _ _ _ _ h1]
  · split
    · rw [getVal_delVal_ne _ _ _ h2, getVal_setVal_ne _ _ _ _ h1]
    · rfl

theorem frameOn_fixInitContainer :
    FrameOn [[PatElem.pkey "command"], [PatElem.pkey "args"]] fixInitContainer :=
  frameOn_two_keys _ _ _ (fun m k3 h1 h2 => getVal_fixInitContainer_ne m k3 h1 h2)

theorem getVal_fixBadImage_ne (c : Obj) (k3 : String) (h : k3 ≠ "image") :
    getVal (fixBadImage c) k3 = getVal c k3 := by
  simp only [fixBadImage]
  cases hv : getVal c "image" with
  | none => rfl
  | some v =>
    cases v with
    | str s =>
      dsimp only
      split
      · rw [getVal_setVal_ne _ _ _ _ h]
      · split
        · rw [getVal_setVal_ne _ _ _ _ h]
        · rfl
    | num n => rfl
    | bool b => rfl
    | null => rfl
    | obj o => rfl
    | arr l => rfl

theorem frameOn_fixBadImage : FrameOn [[PatElem.pkey "image"]] fixBadImage :=
  frameOn_single_key _ _ (fun m k2 hk => getVal_fixBadImage_ne m k2 hk)

theorem frameOn_modPodSpecForWorkload (pats : List Pat) (f : Obj → Obj)
    (hne : pats ≠ []) (hf : FrameOn pats f) :
    FrameOn (pats.map (fun q => PatElem.pkey "spec" :: q) ++
      pats.map (fun q => PatElem.pkey "spec" :: PatElem.pkey "template" ::
        PatElem.pkey "spec" :: q))
      (fun doc => modPodSpecForWorkload doc f) := by
  intro m p hall
  rw [List.all_append, Bool.and_eq_true] at hall
  obtain ⟨hall1, hall2⟩ := hall
  simp only [modPodSpecForWorkload]
  split_ifs with h1 h2
  · exact frameOn_modObjKey "spec" pats f hne hf m p hall1
  · have hmapne : pats.map (fun q => PatElem.pkey "spec" :: q) ≠ [] := by
      simp [List.map_eq_nil_iff, hne]
    have hmapne2 : (pats.map (fun q => PatElem.pkey "spec" :: q)).map
        (fun q => PatElem.pkey "template" :: q) ≠ [] := by
      simp [List.map_eq_nil_iff, hne]
    have houter := frameOn_modObjKey "spec" _ _ hmapne2
      (frameOn_modObjKey "template" _ _ hmapne
        (frameOn_modObjKey "spec" pats f hne hf))
    have hlist : ((pats.map fun q => PatElem.pkey "spec" :: q).map
          (fun q => PatElem.pkey "template" :: q)).map
          (fun q => PatElem.pkey "spec" :: q)
        = pats.map (fun q => PatElem.pkey "spec" :: PatElem.pkey "template" ::
            PatElem.pkey "spec" :: q) := by
      simp [List.map_map, Function.comp]
    rw [hlist] at houter
    exact houter m p hall2
  · rfl

/-- The mutable container locations of the deployability fixes, relative to a
pod spec. -/
def containerFixPats : List Pat :=
  [[PatElem.pkey "initContainers", PatElem.pany, PatElem.pkey "command"],
   [PatElem.pkey "initContainers", PatElem.pany, PatElem.pkey "args"],
   [PatElem.pkey "containers", PatElem.pany, PatElem.pkey "image"],
   [PatElem.pkey "initContainers", PatElem.pany, PatElem.pkey "image"]]

/-- The mutable locations of the deployability fixes, relative to the
document. -/
def deployFixPats : List Pat :=
  containerFixPats.map (fun q => PatElem.pkey "spec" :: q) ++
  containerFixPats.map (fun q => PatElem.pkey "spec" :: PatElem.pkey "template" ::
    PatElem.pkey "spec" :: q)

theorem frameOn_fixInitContainers : FrameOn deployFixPats fixInitContainers := by
  have hinner : FrameOn containerFixPats
      (fun ps => modArrKey ps "initContainers" (modElemObj fixInitContainer)) :=
    frameOn_mono (by decide)
      (frameOn_modArrKey "initContainers" _ _ (by decide)
        (frameOnV_modElemObj _ _ frameOn_fixInitContainer))
  exact frameOn_modPodSpecForWorkload containerFixPats _ (by decide) hinner

theorem frameOn_fixBadImages : FrameOn deployFixPats fixBadImages := by
  have hc : FrameOn containerFixPats
      (fun ps => modArrKey ps "containers" (modElemObj fixBadImage)) :=
    frameOn_mono (by decide)
      (frameOn_modArrKey "containers" _ _ (by decide)
        (frameOnV_modElemObj _ _ frameOn_fixBadImage))
  have hi : FrameOn containerFixPats
      (fun ps => modArrKey ps "initContainers" (modElemObj fixBadImage)) :=
    frameOn_mono (by decide)
      (frameOn_modArrKey "initContainers" _ _ (by decide)
        (frameOnV_modElemObj _ _ frameOn_fixBadImage))
  exact frameOn_modPodSpecForWorkload containerFixPats _ (by decide) (frameOn_comp hc hi)

theorem frameOn_applyDeployabilityFixes : FrameOn deployFixPats applyDeployabilityFixes := by
  have h := frameOn_comp frameOn_fixInitContainers frameOn_fixBadImages
  intro m p hall
  exact h m p hall

/-- The kind-specific reference locations the dispatch table of
`rewriteReferences` may mutate, as read off its branches. -/
def refPats (kind expected : String) : List Pat :=
  if kind = "HorizontalPodAutoscaler" then
    [[PatElem.pkey "spec", PatElem.pkey "scaleTargetRef", PatElem.pkey "name"]]
  else if kind = "PersistentVolumeClaim" then
    [[PatElem.pkey "spec", PatElem.pkey "storageClassName"]]
  else if kind = "StatefulSet" then
    [[PatElem.pkey "spec", PatElem.pkey "volumeClaimTemplates", PatElem.pany,
      PatElem.pkey "spec", PatElem.pkey "storageClassName"],
     [PatElem.pkey "spec", PatElem.pkey "template", PatElem.pkey "spec",
      PatElem.pkey "serviceAccountName"],
     [PatElem.pkey "spec", PatElem.pkey "template", PatElem.pkey "spec",
      PatElem.pkey "volumes", PatElem.pany, PatElem.pkey "persistentVolumeClaim",
      PatElem.pkey "claimName"]]
  else if kind = "Deployment" ∨ kind = "ReplicaSet" ∨ kind = "DaemonSet" then
    [[PatElem.pkey "spec", PatElem.pkey "template", PatElem.pkey "spec",
      PatElem.pkey "serviceAccountName"],
     [PatElem.pkey "spec", PatElem.pkey "template", PatElem.pkey "spec",
      PatElem.pkey "volumes", PatElem.pany, PatElem.pkey "persistentVolumeClaim",
      PatElem.pkey "claimName"]] ++
    (if expected = "beta" then [[PatElem.pkey "spec", PatElem.pkey "replicas"]] else [])
  else if kind = "Pod" then
    [[PatElem.pkey "spec", PatElem.pkey "serviceAccountName"],
     [PatElem.pkey "spec", PatElem.pkey "volumes", PatElem.pany,
      PatElem.pkey "persistentVolumeClaim", PatElem.pkey "claimName"]]
  else if kind = "RoleBinding" ∨ kind = "ClusterRoleBinding" then
    [[PatElem.pkey "subjects", PatElem.pany, PatElem.pkey "name"],
     [PatElem.pkey "subjects", PatElem.pany, PatElem.pkey "namespace"],
     [PatElem.pkey "roleRef", PatElem.pkey "name"]]
  else []

/-- All locations `rewriteManifest` may mutate on a document of the given kind:
the identity fields, the kind-specific reference fields, and the deployability
fix fields. -/
def mutPats (kind expected : String) : List Pat :=
  identityPats ++ refPats kind expected ++ deployFixPats

theorem rewriteReferences_frame (ctx : manifestRewriteContext) (doc : Obj)
    (p : List PathElem)
    (hall : ((refPats (getStr doc ["kind"]) ctx.expected).all
      fun q => !(touchesB q p)) = true) :
    getPath (Val.obj (rewriteReferences doc ctx)) p = getPath (Val.obj doc) p := by
  simp only [refPats] at hall
  simp only [rewriteReferences]
  by_cases h1 : getStr doc ["kind"] = "HorizontalPodAutoscaler"
  · rw [if_pos h1] at hall ⊢
    have hf := frameOn_modObjKey "spec" _ _ (by decide)
      (frameOn_modObjKey "scaleTargetRef" _ _ (by decide)
        (frameOn_rewriteScaleTargetRef ctx.nameMap ctx.ns))
    exact hf doc p hall
  rw [if_neg h1] at hall ⊢
  by_cases h2 : getStr doc ["kind"] = "PersistentVolumeClaim"
  · rw [if_pos h2] at hall ⊢
    have hf := frameOn_modObjKey "spec" _ _ (by decide)
      (frameOn_modStrKey "storageClassName"
        (fun sc => mapName ctx.nameMap "StorageClass" "" sc))
    exact hf doc p hall
  rw [if_neg h2] at hall ⊢
  by_cases h3 : getStr doc ["kind"] = "StatefulSet"
  · rw [if_pos h3] at hall ⊢
    have hvct : FrameOn
        [[PatElem.pkey "volumeClaimTemplates", PatElem.pany, PatElem.pkey "spec",
          PatElem.pkey "storageClassName"],
         [PatElem.pkey "template", PatElem.pkey "spec", PatElem.pkey "serviceAccountName"],
         [PatElem.pkey "template", PatElem.pkey "spec", PatElem.pkey "volumes",
          PatElem.pany, PatElem.pkey "persistentVolumeClaim", PatElem.pkey "claimName"]]
        (fun spec => rewriteVolumeClaimTemplates spec ctx.nameMap) :=
      frameOn_mono (by decide) (frameOn_rewriteVolumeClaimTemplates ctx.nameMap)
    have htpl : FrameOn
        [[PatElem.pkey "volumeClaimTemplates", PatElem.pany, PatElem.pkey "spec",
          PatElem.pkey "storageClassName"],
         [PatElem.pkey "template", PatElem.pkey "spec", PatElem.pkey "serviceAccountName"],
         [PatElem.pkey "template", PatElem.pkey "spec", PatElem.pkey "volumes",
          PatElem.pany, PatElem.pkey "persistentVolumeClaim", PatElem.pkey "claimName"]]
        (fun spec => rewritePodTemplateRefs spec ctx.nameMap ctx.ns) :=
      frameOn_mono (by decide) (frameOn_rewritePodTemplateRefs ctx.nameMap ctx.ns)
    have hf := frameOn_modObjKey "spec" _ _ (by decide) (frameOn_comp hvct htpl)
    exact hf doc p hall
  rw [if_neg h3] at hall ⊢
  by_cases h4 : getStr doc ["kind"] = "Deployment" ∨ getStr doc ["kind"] = "ReplicaSet" ∨
      getStr doc ["kind"] = "DaemonSet"
  · rw [if_pos h4] at hall ⊢
    by_cases hb : ctx.expected = "beta"
    · rw [if_pos hb] at hall
      have htpl : FrameOn
          [[PatElem.pkey "template", PatElem.pkey "spec", PatElem.pkey "serviceAccountName"],
           [PatElem.pkey "template", PatElem.pkey "spec", PatElem.pkey "volumes",
            PatElem.pany, PatElem.pkey "persistentVolumeClaim", PatElem.pkey "claimName"],
           [PatElem.pkey "replicas"]]
          (fun spec => rewritePodTemplateRefs spec ctx.nameMap ctx.ns) :=
        frameOn_mono (by decide) (frameOn_rewritePodTemplateRefs ctx.nameMap ctx.ns)
      have hrc : FrameOn
          [[PatElem.pkey "template", PatElem.pkey "spec", PatElem.pkey "serviceAccountName"],
           [PatElem.pkey "template", PatElem.pkey "spec", PatElem.pkey "volumes",
            PatElem.pany, PatElem.pkey "persistentVolumeClaim", PatElem.pkey "claimName"],
           [PatElem.pkey "replicas"]]
          (fun spec => fixReplicaCount spec ctx.expected) :=
        frameOn_mono (by decide) (frameOn_fixReplicaCount ctx.expected)
      have hf := frameOn_modObjKey "spec" _ _ (by decide) (frameOn_comp htpl hrc)
      exact hf doc p hall
    · rw [if_neg hb] at hall
      have htpl : FrameOn
          [[PatElem.pkey "template", PatElem.pkey "spec", PatElem.pkey "serviceAccountName"],
           [PatElem.pkey "template", PatElem.pkey "spec", PatElem.pkey "volumes",
            PatElem.pany, PatElem.pkey "persistentVolumeClaim", PatElem.pkey "claimName"]]
          (fun spec => rewritePodTemplateRefs spec ctx.nameMap ctx.ns) :=
        frameOn_mono (by decide) (frameOn_rewritePodTemplateRefs ctx.nameMap ctx.ns)
      have hrc : FrameOn
          [[PatElem.pkey "template", PatElem.pkey "spec", PatElem.pkey "serviceAccountName"],
           [PatElem.pkey "template", PatElem.pkey "spec", PatElem.pkey "volumes",
            PatElem.pany, PatElem.pkey "persistentVolumeClaim", PatElem.pkey "claimName"]]
          (fun spec => fixReplicaCount spec ctx.expected) :=
        frameOn_of_id (fun m => fixReplicaCount_other m ctx.expected hb)
      have hf := frameOn_modObjKey "spec" _ _ (by decide) (frameOn_comp htpl hrc)
      exact hf doc p hall
  rw [if_neg h4] at hall ⊢
  by_cases h5 : getStr doc ["kind"] = "Pod"
  · rw [if_pos h5] at hall ⊢
    have hf := frameOn_modObjKey "spec" _ _ (by decide)
      (frameOn_rewritePodSpecRefs ctx.nameMap ctx.ns)
    exact hf doc p hall
  rw [if_neg h5] at hall ⊢
  by_cases h6 : getStr doc ["kind"] = "RoleBinding" ∨
      getStr doc ["kind"] = "ClusterRoleBinding"
  · rw [if_pos h6] at hall ⊢
    have hsubj : FrameOn
        [[PatElem.pkey "subjects", PatElem.pany, PatElem.pkey "name"],
         [PatElem.pkey "subjects", PatElem.pany, PatElem.pkey "namespace"],
         [PatElem.pkey "roleRef", PatElem.pkey "name"]]
        (fun d => modArrKey d "subjects"
          (modElemObj (rewriteRoleBindingSubject ctx.nameMap ctx.ns))) :=
      frameOn_mono (by decide)
        (frameOn_modArrKey "subjects" _ _ (by decide)
          (frameOnV_modElemObj _ _ (frameOn_rewriteRoleBindingSubject ctx.nameMap ctx.ns)))
    have href : FrameOn
        [[PatElem.pkey "subjects", PatElem.pany, PatElem.pkey "name"],
         [PatElem.pkey "subjects", PatElem.pany, PatElem.pkey "namespace"],
         [PatElem.pkey "roleRef", PatElem.pkey "name"]]
        (fun d => modObjKey d "roleRef" (rewriteRoleRefInner ctx.nameMap ctx.ns)) :=
      frameOn_mono (by decide)
        (frameOn_modObjKey "roleRef" _ _ (by decide)
          (frameOn_rewriteRoleRefInner ctx.nameMap ctx.ns))
    have hf := frameOn_comp hsubj href
    simp only [rewriteRoleBindingRefs, rewriteRoleRef]
    exact hf doc p hall
  rw [if_neg h6]

/-- Counterexample document for the frame claim: its `metadata` field holds an
array rather than a mapping. -/
def arrayMetaDoc : Obj :=
  [("kind", Val.str "ConfigMap"), ("metadata", Val.arr [Val.str "x"])]

/-- Witness document for the amended frame theorem: an ordinary ConfigMap with
mapping-valued `metadata` and an unrelated `data` field. -/
def frameWitnessDoc : Obj :=
  [("kind", Val.str "ConfigMap"),
   ("metadata", Val.obj [("name", Val.str "cm1")]),
   ("data", Val.obj [("k", Val.str "v")])]

/-- C10, counterexample: the frame property does not hold for every input
document. When `metadata` holds an array, the path `metadata[0]` touches none
of the claimed mutable locations, yet `rewriteManifest` destroys its value
(the identity rewriter replaces the whole array with a fresh mapping). -/
theorem rewriteManifest_array_metadata_clobbered :
    ((mutPats "ConfigMap" "alpha").all
      fun q => !(touchesB q [PathElem.key "metadata", PathElem.idx 0])) = true
    ∧ getPath (Val.obj arrayMetaDoc) [PathElem.key "metadata", PathElem.idx 0]
      = some (Val.str "x")
    ∧ getPath (Val.obj (rewriteManifest arrayMetaDoc "n" "gk-t" [] "t" "alpha" false))
      [PathElem.key "metadata", PathElem.idx 0] = none :=
  ⟨by decide, rfl, rfl⟩

/-- C10, amended: on documents whose `metadata` (and `metadata.labels`) are not
arrays, `rewriteManifest` mutates only the identity fields
(`metadata.name`, `metadata.namespace`, the three provenance labels), the
kind-specific reference fields of the dispatch table (including
`spec.replicas` only when the expected tag is `beta`), and the deployability
fix fields (init-container `command`/`args`, container and init-container
`image`); every path touching none of those locations reads the same value
before and after. Array-valued `metadata` is the one exception, shown
separately. -/
theorem rewriteManifest_frame (doc : Obj) (name ns : String)
    (nm : List (nameKey × String)) (taskID expected : String) (isInv : Bool)
    (p : List PathElem)
    (hmeta : ∀ l, getVal doc "metadata" ≠ some (Val.arr l))
    (hlab : ∀ l, getVal (metaBase doc) "labels" ≠ some (Val.arr l))
    (hall : ((mutPats (getStr doc ["kind"]) expected).all
      fun q => !(touchesB q p)) = true) :
    getPath (Val.obj (rewriteManifest doc name ns nm taskID expected isInv)) p
      = getPath (Val.obj doc) p := by
  simp only [mutPats, List.all_append, Bool.and_eq_true] at hall
  obtain ⟨⟨hallI, hallR⟩, hallD⟩ := hall
  have e1 : getPath
      (Val.obj (applyIdentity doc ⟨name, ns, nm, taskID, expected, isInv⟩)) p
      = getPath (Val.obj doc) p :=
    applyIdentity_frame _ doc p hmeta hlab hallI
  have hk1 : getStr (applyIdentity doc ⟨name, ns, nm, taskID, expected, isInv⟩) ["kind"]
      = getStr doc ["kind"] := getStr_applyIdentity_kind doc _
  have e2 : getPath (Val.obj (rewriteReferences
        (applyIdentity doc ⟨name, ns, nm, taskID, expected, isInv⟩)
        ⟨name, ns, nm, taskID, expected, isInv⟩)) p
      = getPath (Val.obj (applyIdentity doc ⟨name, ns, nm, taskID, expected, isInv⟩)) p :=
    rewriteReferences_frame _ _ p (by rw [hk1]; exact hallR)
  have e3 := frameOn_applyDeployabilityFixes
    (rewriteReferences (applyIdentity doc ⟨name, ns, nm, taskID, expected, isInv⟩)
      ⟨name, ns, nm, taskID, expected, isInv⟩) p hallD
  simp only [rewriteManifest]
  rw [e3, e2, e1]

/-- C10 witness: on a ConfigMap with mapping metadata, the unrelated field
`data.k` survives the rewrite with its original value. -/
theorem rewriteManifest_frame_witness :
    getPath (Val.obj (rewriteManifest frameWitnessDoc "n" "gk-t" [] "t" "alpha" false))
        [PathElem.key "data", PathElem.key "k"]
      = getPath (Val.obj frameWitnessDoc) [PathElem.key "data", PathElem.key "k"]
    ∧ getPath (Val.obj frameWitnessDoc) [PathElem.key "data", PathElem.key "k"]
      = some (Val.str "v") :=
  ⟨rewriteManifest_frame frameWitnessDoc "n" "gk-t" [] "t" "alpha" false
      [PathElem.key "data", PathElem.key "k"]
      (by intro l hc; simp [frameWitnessDoc, getVal] at hc)
      (by intro l hc; simp [frameWitnessDoc, metaBase, getVal] at hc)
      (by decide),
   rfl⟩

end K8sAiBench
